import Mathlib

/-
Verification of the SkBlurMask box-blur engine (SkBlurMask.cpp).

The development shallowly embeds the blur-engine routines:

* `boxBlur` / `boxBlurInterp`: the separable 1-D box filters, modelled one
  row at a time.  The hand-unrolled x16 loop variants of the source are
  semantically identical to the plain loops (same iteration body, same
  count), so each loop is embedded once with its exact body.
* `build_sum_buffer`: the summed-area table, as a two-index function.
* `apply_kernel` / `kernel_clamped`: the segmented 4-corner sampling loops,
  modelled per output pixel.
* `merge_src_with_blur` / `clamp_with_orig`: the style post-processing,
  modelled per pixel.
* `SkBlurMask::Blur` and `SkBlurMask::BlurRect`: control flow, margins,
  bounds, return value and buffer accounting.

C `uint32_t` arithmetic is embedded as `Nat` with explicit reduction
modulo 2^32 (`u32`, `u32sub`); `uint8_t` loads reduce modulo 256
(`byteAt`, `skToU8`).  `SkScalar` (a 32-bit float in the source) is
embedded as the rationals; the claims settled over scalars concern
control flow (pass counts, ceilings, roundings, margins), not float
rounding error.
-/

/-- Value of a C `uint32_t`: reduction modulo 2^32. -/
def u32 (a : Nat) : Nat := a % 4294967296

/-- C `uint32_t` subtraction `a - b` (two's-complement wraparound). -/
def u32sub (a b : Nat) : Nat := (a + (4294967296 - b % 4294967296)) % 4294967296

/-- Load of a `uint8_t` from an abstract byte buffer. -/
def byteAt (s : Nat → Nat) (i : Nat) : Nat := s i % 256

/-- `SkToU8`: store of a computed value into a `uint8_t`. -/
def skToU8 (n : Nat) : Nat := n % 256

/-- The fixed-point output store of `boxBlur`: `(sum * scale + half) >> 24`
computed in `uint32_t`. -/
def outPix (scale half sum : Nat) : Nat := u32 (sum * scale + half) / 16777216

/-- `LEFT_BORDER_ITER` loop of `boxBlur` (`sum += *right++;
*dptr = (sum * scale + half) >> 24`), run `n` times with the read index at
`ri`; the x16-unrolled variant has the same body and total count.
Returns the written pixels and the final `sum`. -/
def lbPhase (s : Nat → Nat) (scale half : Nat) : Nat → Nat → Nat → List Nat × Nat
  | 0, _, sum => ([], sum)
  | n+1, ri, sum =>
    let sum2 := u32 (sum + byteAt s ri)
    let rest := lbPhase s scale half n (ri+1) sum2
    (outPix scale half sum2 :: rest.1, rest.2)

/-- `CENTER_ITER` loop of `boxBlur` (`sum += *right++; *dptr = ...;
sum -= *left++`), run `n` times with read index `ri` and trailing index
`li`. -/
def centerPhase (s : Nat → Nat) (scale half : Nat) : Nat → Nat → Nat → Nat → List Nat × Nat
  | 0, _, _, sum => ([], sum)
  | n+1, ri, li, sum =>
    let sum2 := u32 (sum + byteAt s ri)
    let sum3 := u32sub sum2 (byteAt s li)
    let rest := centerPhase s scale half n (ri+1) (li+1) sum3
    (outPix scale half sum2 :: rest.1, rest.2)

/-- `RIGHT_BORDER_ITER` loop of `boxBlur` (`*dptr = ...; sum -= *left++`),
run `n` times with trailing index `li`. -/
def rbPhase (s : Nat → Nat) (scale half : Nat) : Nat → Nat → Nat → List Nat × Nat
  | 0, _, sum => ([], sum)
  | n+1, li, sum =>
    let rest := rbPhase s scale half n (li+1) (u32sub sum (byteAt s li))
    (outPix scale half sum :: rest.1, rest.2)

/-- One row iteration of `boxBlur` over the row accessor `s`: the leading
`rightRadius - leftRadius` zero stores, the left-border loop (`border`
iterations), the `TRIVIAL_ITER` loop (`x = width .. diameter`, which
repeats the value of the unchanged accumulator), the center loop, the
right-border loop, and the trailing `leftRadius - rightRadius` zero
stores.  Returns the written pixels in write order and the final running
`sum` (the value the end-of-row `SkASSERT(sum == 0)` checks). -/
def boxBlurRow (s : Nat → Nat) (leftRadius rightRadius width : Nat) : List Nat × Nat :=
  let diameter := leftRadius + rightRadius
  let kernelSize := diameter + 1
  let border := min width diameter
  let scale := 16777216 / kernelSize
  let half := 8388608
  let p1 := lbPhase s scale half border 0 0
  let o2 := List.replicate (diameter - width) (outPix scale half p1.2)
  let p3 := centerPhase s scale half (width - diameter) border 0 p1.2
  let p4 := rbPhase s scale half border (width - diameter) p3.2
  (List.replicate (rightRadius - leftRadius) 0 ++ p1.1 ++ o2 ++ p3.1 ++ p4.1
     ++ List.replicate (leftRadius - rightRadius) 0, p4.2)

/-- `boxBlur`: all `height` row iterations (row `y` reads from
`src + y * src_y_stride`) and the returned `new_width
= width + SkMax32(leftRadius, rightRadius) * 2`.  The `transpose` flag
only transposes the memory layout of the destination
(`dst_x_stride`/`dst_y_stride`); the written pixel values are identical,
so the model returns them row-major. -/
def boxBlur (src : Nat → Nat) (srcYStride : Nat)
    (leftRadius rightRadius width height : Nat) (transpose : Bool) :
    List (List Nat) × Nat :=
  let _ := transpose
  ((List.range height).map fun y =>
      (boxBlurRow (fun i => src (y * srcYStride + i)) leftRadius rightRadius width).1,
   width + max leftRadius rightRadius * 2)

/-- The interpolated output store of `boxBlurInterp`:
`(outer_sum * outer_scale + inner_sum * inner_scale + half) >> 24` in
`uint32_t`. -/
def iOut (oScale iScale half outer inner : Nat) : Nat :=
  u32 (outer * oScale + inner * iScale + half) / 16777216

/-- `outer_scale = (outer_weight << 16) / kernelSize` after the
`outer_weight += outer_weight >> 7` adjustment. -/
def interpOuterScale (outerWeight kernelSize : Nat) : Nat :=
  ((outerWeight + outerWeight / 128) * 65536) / kernelSize

/-- `inner_scale = (inner_weight << 16) / (kernelSize - 2)` after the
`inner_weight += inner_weight >> 7` adjustment, with
`inner_weight = 255 - outer_weight`.  Computed over `Int` because at
`kernelSize = 1` the C `int` division is by `-1`, and the quotient is then
converted to `uint32_t`. -/
def interpInnerScale (outerWeight kernelSize : Nat) : Nat :=
  let iw : Int := 255 - (outerWeight : Int)
  (((iw + iw / 128) * 65536) / ((kernelSize : Int) - 2)).emod 4294967296 |>.toNat

/-- `LEFT_BORDER_ITER` loop of `boxBlurInterp` (`inner_sum = outer_sum;
outer_sum += *right++; *dptr = ...`), run `n` times.  Returns the written
pixels and the final `(outer_sum, inner_sum)`. -/
def ilbPhase (s : Nat → Nat) (oScale iScale half : Nat) :
    Nat → Nat → Nat → Nat → List Nat × Nat × Nat
  | 0, _, outer, inner => ([], outer, inner)
  | n+1, ri, outer, inner =>
    let _ := inner
    let inner2 := outer
    let outer2 := u32 (outer + byteAt s ri)
    let rest := ilbPhase s oScale iScale half n (ri+1) outer2 inner2
    (iOut oScale iScale half outer2 inner2 :: rest.1, rest.2)

/-- `CENTER_ITER` loop of `boxBlurInterp` (`inner_sum = outer_sum - *left;
outer_sum += *right++; *dptr = ...; outer_sum -= *left++`), run `n`
times. -/
def icPhase (s : Nat → Nat) (oScale iScale half : Nat) :
    Nat → Nat → Nat → Nat → Nat → List Nat × Nat × Nat
  | 0, _, _, outer, inner => ([], outer, inner)
  | n+1, ri, li, outer, inner =>
    let _ := inner
    let inner2 := u32sub outer (byteAt s li)
    let outer2 := u32 (outer + byteAt s ri)
    let outer3 := u32sub outer2 (byteAt s li)
    let rest := icPhase s oScale iScale half n (ri+1) (li+1) outer3 inner2
    (iOut oScale iScale half outer2 inner2 :: rest.1, rest.2)

/-- `RIGHT_BORDER_ITER` loop of `boxBlurInterp`
(`inner_sum = outer_sum - *left++; *dptr = ...; outer_sum = inner_sum`),
run `n` times. -/
def irbPhase (s : Nat → Nat) (oScale iScale half : Nat) :
    Nat → Nat → Nat → Nat → List Nat × Nat × Nat
  | 0, _, outer, inner => ([], outer, inner)
  | n+1, li, outer, inner =>
    let _ := inner
    let inner2 := u32sub outer (byteAt s li)
    let rest := irbPhase s oScale iScale half n (li+1) inner2 inner2
    (iOut oScale iScale half outer inner2 :: rest.1, rest.2)

/-- One row iteration of `boxBlurInterp` over the row accessor `s`.
Returns the written pixels and the final `(outer_sum, inner_sum)` pair
(the values the end-of-row
`SkASSERT(outer_sum == 0 && inner_sum == 0)` checks). -/
def boxBlurInterpRow (s : Nat → Nat) (radius width outerWeight : Nat) :
    List Nat × Nat × Nat :=
  let diameter := radius * 2
  let kernelSize := diameter + 1
  let border := min width diameter
  let oScale := interpOuterScale outerWeight kernelSize
  let iScale := interpInnerScale outerWeight kernelSize
  let half := 8388608
  let p1 := ilbPhase s oScale iScale half border 0 0 0
  let o2 := List.replicate (diameter - width) (iOut oScale iScale half p1.2.1 p1.2.2)
  let p3 := icPhase s oScale iScale half (width - diameter) border 0 p1.2.1 p1.2.2
  let p4 := irbPhase s oScale iScale half border (width - diameter) p3.2.1 p3.2.2
  (p1.1 ++ o2 ++ p3.1 ++ p4.1, p4.2)

/-- `boxBlurInterp`: all `height` row iterations and the returned
`new_width = width + diameter`.  As with `boxBlur`, `transpose` only
permutes the destination layout. -/
def boxBlurInterp (src : Nat → Nat) (srcYStride radius width height : Nat)
    (transpose : Bool) (outerWeight : Nat) : List (List Nat) × Nat :=
  let _ := transpose
  ((List.range height).map fun y =>
      (boxBlurInterpRow (fun i => src (y * srcYStride + i)) radius width outerWeight).1,
   width + radius * 2)

/-- Specification-side prefix sum of the first `n` bytes of a row. -/
def SumTo (s : Nat → Nat) : Nat → Nat
  | 0 => 0
  | n+1 => SumTo s n + byteAt s n

/-- Specification-side sliding-window sum: the sum of the source bytes in
`[p - diameter, p] ∩ [0, width)`, the window whose box average `boxBlur`
stores at output column `p` of the un-padded output section. -/
def windowSum (s : Nat → Nat) (diameter width p : Nat) : Nat :=
  SumTo s (min (p + 1) width) - SumTo s (p - diameter)

/-- Specification-side description of one `boxBlur` output row:
`rightRadius - leftRadius` zeros, then `width + diameter` box averages
`(windowSum * scale + half) >> 24`, then `leftRadius - rightRadius`
zeros. -/
def boxBlurRowSpec (s : Nat → Nat) (leftRadius rightRadius width : Nat) : List Nat :=
  let diameter := leftRadius + rightRadius
  let scale := 16777216 / (diameter + 1)
  List.replicate (rightRadius - leftRadius) 0
    ++ (List.range (width + diameter)).map
        (fun p => outPix scale 8388608 (u32 (windowSum s diameter width p)))
    ++ List.replicate (leftRadius - rightRadius) 0

/-- One row of `build_sum_buffer` (`X = *src++ + L + T - C` in `uint32_t`,
where `L` is the entry just written in this row, `T` the entry above, and
`C` the entry above-left), given the already-built previous row `prev`
and the source row `srow`.  The first row of the source is the special
case `prev = 0` (`X = *src++ + X`), and the alignment-split and x4
variants of the inner loop have this same body. -/
def sumRow (prev : Nat → Nat) (srow : Nat → Nat) : Nat → Nat
  | 0 => 0
  | i+1 => u32sub (byteAt srow i + sumRow prev srow i + prev (i+1)) (prev i)

/-- `build_sum_buffer`: entry `(j, i)` of the summed-area table built from
the byte image `src` with row stride `srcRB`.  Row 0 is the zeroed top
row; row `j+1` is built from row `j` and source row `j`
(`src + j * srcRB`). -/
def sumBuf (src : Nat → Nat) (srcRB : Nat) : Nat → Nat → Nat
  | 0 => fun _ => 0
  | j+1 => sumRow (sumBuf src srcRB j) (fun x => src (j * srcRB + x))

/-- Specification-side 2-D grid sum: sum of the source bytes `src[y][x]`
over `y < j`, `x < i` (row stride `srcRB`). -/
def gridSum (src : Nat → Nat) (srcRB : Nat) : Nat → Nat → Nat
  | 0, _ => 0
  | j+1, i => gridSum src srcRB j i + SumTo (fun k => src (j * srcRB + k)) i

/-- Specification-side rectangular region sum: sum of the source bytes over
`y0 ≤ y < y1`, `x0 ≤ x < x1`. -/
def regionSum (src : Nat → Nat) (srcRB y0 y1 x0 x1 : Nat) : Nat :=
  ∑ y in Finset.Ico y0 y1, ∑ x in Finset.Ico x0 x1, byteAt (fun k => src (y * srcRB + k)) x

/-- `scale = (1 << 24) / ((2*rx + 1)*(2*ry + 1))` of `apply_kernel`. -/
def applyKernelScale (rx ry : Nat) : Nat := 16777216 / ((2*rx + 1) * (2*ry + 1))

/-- The reference ("original version") clamped loop body of `apply_kernel`,
per output pixel `(x, y)`: `px = SkClampPos(prev_x)`,
`nx = SkFastMin32(next_x, sw)` with `prev_x = x - 2*rx`, `next_x = x + 1`
(and likewise for rows), 4-corner sample
`tmp = sum[px+py] + sum[nx+ny] - sum[nx+py] - sum[px+ny]` in `uint32_t`,
store `SkToU8(tmp * scale >> 24)`.  `SkClampPos` on `x - 2*rx` is
truncated `Nat` subtraction. -/
def applyKernelRefPix (S : Nat → Nat) (rx ry sw sh x y : Nat) : Nat :=
  let sumStride := sw + 1
  let scale := applyKernelScale rx ry
  let py := (y - 2*ry) * sumStride
  let ny := min (y + 1) sh * sumStride
  let px := x - 2*rx
  let nx := min (x + 1) sw
  let tmp := u32sub (u32sub (S (px + py) + S (nx + ny)) (S (nx + py))) (S (px + ny))
  skToU8 (u32 (tmp * scale) / 16777216)

/-- `kernel_clamped`, per output pixel: the path taken when `2*rx > sw`;
its loop body is exactly the reference clamped body. -/
def kernelClampedPix (S : Nat → Nat) (rx ry sw sh x y : Nat) : Nat :=
  let sumStride := sw + 1
  let scale := applyKernelScale rx ry
  let py := (y - 2*ry) * sumStride
  let ny := min (y + 1) sh * sumStride
  let px := x - 2*rx
  let nx := min (x + 1) sw
  let tmp := u32sub (u32sub (S (px + py) + S (nx + ny)) (S (nx + py))) (S (px + ny))
  skToU8 (u32 (tmp * scale) / 16777216)

/-- `apply_kernel`, per output pixel `(x, y)`: dispatches to
`kernel_clamped` when `2*rx > sw`, and otherwise runs the three segmented
row sections: the left-hand section (`x < 2*rx`, `px` pinned to 0,
`nx = next_x`), the center section (`2*rx ≤ x < dw - 2*rx = sw`, running
indices `i0..i3`, i.e. `px = prev_x = x - 2*rx`, `nx = next_x = x + 1`),
and the right-hand section (`x ≥ sw`, `nx` pinned to `sw`). -/
def applyKernelPix (S : Nat → Nat) (rx ry sw sh x y : Nat) : Nat :=
  if 2*rx > sw then kernelClampedPix S rx ry sw sh x y
  else
    let sumStride := sw + 1
    let scale := applyKernelScale rx ry
    let py := (y - 2*ry) * sumStride
    let ny := min (y + 1) sh * sumStride
    if x < 2*rx then
      let px := 0
      let nx := x + 1
      let tmp := u32sub (u32sub (S (px + py) + S (nx + ny)) (S (nx + py))) (S (px + ny))
      skToU8 (u32 (tmp * scale) / 16777216)
    else if x < sw then
      let px := x - 2*rx
      let nx := x + 1
      let tmp := u32sub (u32sub (S (px + py) + S (nx + ny)) (S (nx + py))) (S (px + ny))
      skToU8 (u32 (tmp * scale) / 16777216)
    else
      let px := x - 2*rx
      let nx := sw
      let tmp := u32sub (u32sub (S (px + py) + S (nx + ny)) (S (nx + py))) (S (px + ny))
      skToU8 (u32 (tmp * scale) / 16777216)

/-- The flat (row-major, stride `sw + 1`) view of the summed-area table,
as `apply_kernel` indexes it. -/
def satFlat (src : Nat → Nat) (srcRB sw : Nat) (i : Nat) : Nat :=
  sumBuf src srcRB (i / (sw + 1)) (i % (sw + 1))

/-- The non-separable low-quality pixel pipeline of `SkBlurMask::Blur`
(`build_sum_buffer` then `apply_kernel`): destination pixel `(x, y)`. -/
def satBlurPix (src : Nat → Nat) (srcRB sw sh rx ry x y : Nat) : Nat :=
  applyKernelPix (satFlat src srcRB sw) rx ry sw sh x y

/-- Modelled from the spec: `SkMulDiv255Round` (its header `SkColorPriv.h`
is not under `src/`) — `round(s*d/255)`.  `s*d/255` is never exactly
half-integral, so rounding to nearest is `(s*d + 127) / 255`. -/
def SkMulDiv255Round (a b : Nat) : Nat := (a * b + 127) / 255

/-- The `kSolid_Style` pixel of `clamp_with_orig`:
`*dst = SkToU8(s + d - SkMulDiv255Round(s, d))`. -/
def solidStylePix (s d : Nat) : Nat := skToU8 (s + d - SkMulDiv255Round s d)

/-- The `kOuter_Style` pixel of `clamp_with_orig`: the destination is
updated only when `*src` is nonzero.  The update
`SkAlphaMul(*dst, SkAlpha255To256(255 - *src))` is modelled from the
spec (its header is not under `src/`): `dst * (255 - src) / 255`. -/
def outerStylePix (s d : Nat) : Nat :=
  if s ≠ 0 then skToU8 (d * (255 - s) / 255) else d

/-- The pixel of `merge_src_with_blur` (the `kInner_Style` merge):
`SkToU8(SkAlphaMul(*blur, SkAlpha255To256(*src)))`, modelled from the
spec (its header is not under `src/`): `blur * src / 255`. -/
def innerMergePix (blur s : Nat) : Nat := skToU8 (blur * s / 255)

/-- The four blur styles of `SkBlurMask`. -/
inductive SkBlurStyle where
  | normal
  | solid
  | outer
  | inner
  deriving DecidableEq

/-- The two blur qualities of `SkBlurMask`. -/
inductive SkBlurQuality where
  | low
  | high
  deriving DecidableEq

/-- `SkMask::CreateMode`. -/
inductive SkCreateMode where
  | justComputeBounds
  | justRenderImage
  | computeBoundsAndRenderImage
  deriving DecidableEq

/-- Integer rectangle (`SkIRect`). -/
structure SkIRect where
  fLeft : Int
  fTop : Int
  fRight : Int
  fBottom : Int
  deriving DecidableEq

/-- `SkIRect::width()`. -/
def SkIRect.width (r : SkIRect) : Int := r.fRight - r.fLeft

/-- `SkIRect::height()`. -/
def SkIRect.height (r : SkIRect) : Int := r.fBottom - r.fTop

/-- `SkScalarCeil` over the rational scalar model. -/
def SkScalarCeil (x : ℚ) : Int := ⌈x⌉

/-- `SkScalarRound` / `SkScalarRoundToInt` over the rational scalar model:
`floor(x + 0.5)`. -/
def SkScalarRound (x : ℚ) : Int := ⌊x + 1/2⌋

/-- `kBlurRadiusFudgeFactor = SkFloatToScalar(.57735f)`, the 1/sqrt(3)
pre-scale. -/
def kBlurRadiusFudgeFactor : ℚ := 57735 / 100000

/-- Modelled from the spec: `SkMask::computeImageSize` (its header is not
under `src/`) — the byte size `height * rowBytes` of the mask image, or 0
when that size is zero or overflows the representable (32-bit) range. -/
def computeImageSize (bounds : SkIRect) (rowBytes : Int) : Nat :=
  let sz := bounds.height * rowBytes
  if 0 < sz ∧ sz < 4294967296 then sz.toNat else 0

/-- The quality actually used by `SkBlurMask::Blur`: high quality is forced
off for radii below 3 (`if (radius < SkIntToScalar(3)) quality =
kLow_Quality`). -/
def effQuality (radius : ℚ) (quality : SkBlurQuality) : SkBlurQuality :=
  if radius < 3 then .low else quality

/-- `passCount`: 3 box-blur passes per axis at (effective) high quality,
1 otherwise. -/
def blurPassCount (radius : ℚ) (quality : SkBlurQuality) : Nat :=
  if effQuality radius quality = .high then 3 else 1

/-- `passRadius`: the per-pass radius, pre-scaled by
`kBlurRadiusFudgeFactor` at (effective) high quality. -/
def blurPassRadius (radius : ℚ) (quality : SkBlurQuality) : ℚ :=
  if effQuality radius quality = .high then radius * kBlurRadiusFudgeFactor else radius

/-- `rx = SkScalarCeil(passRadius)`. -/
def blurRx (radius : ℚ) (quality : SkBlurQuality) : Int :=
  SkScalarCeil (blurPassRadius radius quality)

/-- `outerWeight = 255 - SkScalarRound((SkIntToScalar(rx) - passRadius) * 255)`. -/
def blurOuterWeight (radius : ℚ) (quality : SkBlurQuality) : Int :=
  255 - SkScalarRound (((blurRx radius quality : Int) - blurPassRadius radius quality) * 255)

/-- The destination bounds of `Blur`: the source bounds outset by
`(padx, pady) = (passCount * rx, passCount * ry)`. -/
def blurDstBounds (srcBounds : SkIRect) (radius : ℚ) (quality : SkBlurQuality) : SkIRect :=
  ⟨srcBounds.fLeft - (blurPassCount radius quality : Int) * blurRx radius quality,
   srcBounds.fTop - (blurPassCount radius quality : Int) * blurRx radius quality,
   srcBounds.fRight + (blurPassCount radius quality : Int) * blurRx radius quality,
   srcBounds.fBottom + (blurPassCount radius quality : Int) * blurRx radius quality⟩

/-- Observable outcome of a `SkBlurMask::Blur` / `BlurRect` call: the
returned boolean, the computed pass parameters, the reported margin, the
destination mask fields, and buffer accounting (`allocCount` buffers
allocated, `freeCount` of them freed before return, `returnedCount`
handed to the caller as `dst->fImage`). -/
structure BlurResult where
  ok : Bool
  passCount : Nat := 0
  passRadius : ℚ := 0
  rx : Int := 0
  outerWeight : Int := 0
  margin : Option (Int × Int) := none
  bounds : Option SkIRect := none
  rowBytes : Option Int := none
  imageSet : Bool := false
  allocCount : Nat := 0
  freeCount : Nat := 0
  returnedCount : Nat := 0
  deriving DecidableEq

/-- Buffers allocated but neither freed nor handed to the caller. -/
def BlurResult.leaked (m : BlurResult) : Nat :=
  m.allocCount - (m.freeCount + m.returnedCount)

/-- `SkBlurMask::Blur` (the 7-argument worker): format and radius checks,
margin and bounds computation, the image-size checks, and the buffer
accounting of the scoped guards (`SkAutoTCallVProc`, `SkAutoTMalloc`).
Pixel contents are modelled by the pipeline functions (`boxBlurRow`,
`satBlurPix`, the style pixels); `scratch` counts the scope-freed work
buffers of the chosen path.  On the inner-style size-check failure the
destination image pointer has already been set to the (guard-freed)
blur buffer, hence `imageSet := true` there. -/
def SkBlurMaskBlur (isA8 : Bool) (srcBounds : SkIRect) (srcRowBytes : Int)
    (srcHasImage : Bool) (radius : ℚ) (style : SkBlurStyle)
    (quality : SkBlurQuality) (separable : Bool) : BlurResult :=
  if ¬ isA8 then { ok := false }
  else
    let passCount := blurPassCount radius quality
    let passRadius := blurPassRadius radius quality
    let rx := blurRx radius quality
    let outerWeight := blurOuterWeight radius quality
    if rx ≤ 0 then { ok := false, passCount, passRadius, rx, outerWeight }
    else
      let ry := rx
      let padx := (passCount : Int) * rx
      let pady := (passCount : Int) * ry
      let margin := (padx, pady)
      let dstBounds := blurDstBounds srcBounds radius quality
      let dstRowBytes := dstBounds.width
      if srcHasImage then
        let dstSize := computeImageSize dstBounds dstRowBytes
        if dstSize = 0 then
          { ok := false, passCount, passRadius, rx, outerWeight,
            margin := some margin, bounds := some dstBounds,
            rowBytes := some dstRowBytes }
        else
          let scratch := if separable then 1
                         else if effQuality radius quality = .high then 2 else 1
          if style = .inner then
            let srcSize := computeImageSize srcBounds srcRowBytes
            if srcSize = 0 then
              { ok := false, passCount, passRadius, rx, outerWeight,
                margin := some margin, bounds := some dstBounds,
                rowBytes := some dstRowBytes, imageSet := true,
                allocCount := 1 + scratch, freeCount := 1 + scratch }
            else
              { ok := true, passCount, passRadius, rx, outerWeight,
                margin := some margin, bounds := some srcBounds,
                rowBytes := some srcRowBytes, imageSet := true,
                allocCount := 2 + scratch, freeCount := 1 + scratch,
                returnedCount := 1 }
          else
            { ok := true, passCount, passRadius, rx, outerWeight,
              margin := some margin, bounds := some dstBounds,
              rowBytes := some dstRowBytes, imageSet := true,
              allocCount := 1 + scratch, freeCount := scratch,
              returnedCount := 1 }
      else
        if style = .inner then
          { ok := true, passCount, passRadius, rx, outerWeight,
            margin := some margin, bounds := some srcBounds,
            rowBytes := some srcRowBytes }
        else
          { ok := true, passCount, passRadius, rx, outerWeight,
            margin := some margin, bounds := some dstBounds,
            rowBytes := some dstRowBytes }

/-- `compute_profile_size`: `SkScalarRoundToInt(radius * 3)`. -/
def computeProfileSize (radius : ℚ) : Int := SkScalarRound (radius * 3)

/-- The adjusted radius of `BlurRect`:
`radius = SkScalarMul(provided_radius, kBlurRadiusFudgeFactor)` then
`radius = (radius + .5f) * 2.f`. -/
def blurRectAdjRadius (providedRadius : ℚ) : ℚ :=
  (providedRadius * kBlurRadiusFudgeFactor + 1/2) * 2

/-- `SkBlurMask::BlurRect` (over the rational scalar model): margin and
bounds computation, the `kJustComputeBounds_CreateMode` early return
(before `compute_profile` allocates anything), and, for the rendering
modes, the image-size checks and buffer accounting (profile array, blur
buffer, inner-style destination).  Pixel contents (the profile lookups)
are not consulted by the claims settled here. -/
def SkBlurMaskBlurRect (rl rt rr rb : ℚ) (providedRadius : ℚ)
    (style : SkBlurStyle) (createMode : SkCreateMode) : BlurResult :=
  let radius := blurRectAdjRadius providedRadius
  let pSize := computeProfileSize radius
  let pad := pSize / 2
  let margin := (pad, pad)
  let bounds0 : SkIRect :=
    ⟨SkScalarRound (rl - pad), SkScalarRound (rt - pad),
     SkScalarRound (rr + pad), SkScalarRound (rb + pad)⟩
  let rowBytes0 := bounds0.width
  let sw := ⌊rr - rl⌋
  if createMode = .justComputeBounds then
    if style = .inner then
      { ok := true, margin := some margin,
        bounds := some ⟨SkScalarRound rl, SkScalarRound rt,
                        SkScalarRound rr, SkScalarRound rb⟩,
        rowBytes := some sw }
    else
      { ok := true, margin := some margin, bounds := some bounds0,
        rowBytes := some rowBytes0 }
  else
    let dstSize := computeImageSize bounds0 rowBytes0
    if dstSize = 0 then
      { ok := false, margin := some margin, bounds := some bounds0,
        rowBytes := some rowBytes0, allocCount := 1, freeCount := 1 }
    else
      if style = .inner then
        let srcSize := (⌊(rr - rl) * (rb - rt)⌋).toNat
        if srcSize = 0 then
          { ok := false, margin := some margin, bounds := some bounds0,
            rowBytes := some rowBytes0, imageSet := true,
            allocCount := 2, freeCount := 1 }
        else
          { ok := true, margin := some margin,
            bounds := some ⟨SkScalarRound rl, SkScalarRound rt,
                            SkScalarRound rr, SkScalarRound rb⟩,
            rowBytes := some sw, imageSet := true,
            allocCount := 3, freeCount := 2, returnedCount := 1 }
      else
        { ok := true, margin := some margin, bounds := some bounds0,
          rowBytes := some rowBytes0, imageSet := true,
          allocCount := 2, freeCount := 1, returnedCount := 1 }

/-! ## Arithmetic helper lemmas -/

theorem u32_lt (a : Nat) : u32 a < 4294967296 := by
  unfold u32; omega

theorem u32_add_left (a b : Nat) : u32 (u32 a + b) = u32 (a + b) := by
  unfold u32; omega

theorem u32_zero : u32 0 = 0 := rfl

theorem u32sub_mod_left (a b : Nat) : u32sub (u32 a) b = u32sub a b := by
  unfold u32sub u32; omega

theorem u32sub_of_le {a b : Nat} (h : b ≤ a) : u32sub a b = u32 (a - b) := by
  unfold u32sub u32; omega

theorem SumTo_succ (s : Nat → Nat) (n : Nat) :
    SumTo s (n + 1) = SumTo s n + byteAt s n := rfl

theorem SumTo_mono (s : Nat → Nat) {m n : Nat} (h : m ≤ n) :
    SumTo s m ≤ SumTo s n := by
  induction n with
  | zero => simp_all
  | succ n ih =>
    rcases Nat.lt_or_ge m (n + 1) with h2 | h2
    · exact le_trans (ih (by omega)) (by rw [SumTo_succ]; omega)
    · have : m = n + 1 := by omega
      simp [this]

/-! ## boxBlur row characterization -/

theorem lbPhase_eq (s : Nat → Nat) (c h : Nat) (n : Nat) :
    ∀ (ri t : Nat),
      lbPhase s c h n ri (u32 t) =
        ((List.range n).map
            (fun k => outPix c h (u32 (t + (SumTo s (ri + k + 1) - SumTo s ri)))),
          u32 (t + (SumTo s (ri + n) - SumTo s ri))) := by
  induction n with
  | zero => intro ri t; simp [lbPhase]
  | succ n ih =>
    intro ri t
    have hb : SumTo s (ri + 1) = SumTo s ri + byteAt s ri := rfl
    simp only [lbPhase, u32_add_left]
    rw [ih (ri + 1) (t + byteAt s ri)]
    refine Prod.ext ?_ ?_
    · rw [List.range_succ_eq_map, List.map_cons, List.map_map]
      refine congrArg₂ _ ?_ ?_
      · refine congrArg _ (congrArg _ ?_)
        have h2 : SumTo s ri ≤ SumTo s (ri + 0 + 1) := SumTo_mono s (by omega)
        rw [show ri + 0 + 1 = ri + 1 from rfl, hb]
        omega
      · refine List.map_congr_left (fun k _ => ?_)
        simp only [Function.comp]
        refine congrArg _ (congrArg _ ?_)
        have h2 : SumTo s (ri + 1) ≤ SumTo s (ri + 1 + k + 1) := SumTo_mono s (by omega)
        have h3 : SumTo s ri ≤ SumTo s (ri + 1) := SumTo_mono s (by omega)
        have e1 : ri + Nat.succ k + 1 = ri + 1 + k + 1 := by omega
        rw [e1]
        omega
    · simp only []
      have h2 : SumTo s (ri + 1) ≤ SumTo s (ri + 1 + n) := SumTo_mono s (by omega)
      have h3 : SumTo s ri ≤ SumTo s (ri + 1) := SumTo_mono s (by omega)
      have e1 : ri + (n + 1) = ri + 1 + n := by omega
      refine congrArg _ ?_
      rw [e1]
      omega

theorem centerPhase_eq (s : Nat → Nat) (c h m : Nat) (n : Nat) :
    ∀ (li : Nat),
      centerPhase s c h n (li + m) li (u32 (SumTo s (li + m) - SumTo s li)) =
        ((List.range n).map
            (fun k => outPix c h (u32 (SumTo s (li + m + k + 1) - SumTo s (li + k)))),
          u32 (SumTo s (li + m + n) - SumTo s (li + n))) := by
  induction n with
  | zero => intro li; simp [centerPhase]
  | succ n ih =>
    intro li
    have hb : SumTo s (li + m + 1) = SumTo s (li + m) + byteAt s (li + m) := rfl
    have hbl : SumTo s (li + 1) = SumTo s li + byteAt s li := rfl
    have h1 : SumTo s li ≤ SumTo s (li + m) := SumTo_mono s (by omega)
    have h2 : SumTo s (li + 1) ≤ SumTo s (li + m + 1) := SumTo_mono s (by omega)
    have hsum2 : u32 (u32 (SumTo s (li + m) - SumTo s li) + byteAt s (li + m))
        = u32 (SumTo s (li + m + 1) - SumTo s li) := by
      rw [u32_add_left]
      refine congrArg _ ?_
      omega
    have hsum3 : u32sub (u32 (SumTo s (li + m + 1) - SumTo s li)) (byteAt s li)
        = u32 (SumTo s (li + 1 + m) - SumTo s (li + 1)) := by
      rw [u32sub_mod_left, u32sub_of_le (by omega)]
      refine congrArg _ ?_
      have e1 : li + 1 + m = li + m + 1 := by omega
      rw [e1]
      omega
    simp only [centerPhase, hsum2, hsum3]
    have e2 : li + m + 1 = li + 1 + m := by omega
    rw [e2, ih (li + 1)]
    refine Prod.ext ?_ ?_
    · rw [List.range_succ_eq_map, List.map_cons, List.map_map]
      refine congrArg₂ _ ?_ ?_
      · refine congrArg _ (congrArg _ ?_)
        refine congrArg₂ _ ?_ rfl
        refine congrArg _ ?_
        omega
      · refine List.map_congr_left (fun k _ => ?_)
        simp only [Function.comp]
        refine congrArg _ (congrArg _ ?_)
        refine congrArg₂ _ ?_ ?_ <;> refine congrArg _ (by omega)
    · simp only []
      refine congrArg _ ?_
      refine congrArg₂ _ ?_ ?_ <;> refine congrArg _ (by omega)

theorem rbPhase_eq (s : Nat → Nat) (c h w : Nat) (n : Nat) :
    ∀ (li : Nat), li + n ≤ w →
      rbPhase s c h n li (u32 (SumTo s w - SumTo s li)) =
        ((List.range n).map
            (fun k => outPix c h (u32 (SumTo s w - SumTo s (li + k)))),
          u32 (SumTo s w - SumTo s (li + n))) := by
  induction n with
  | zero => intro li _; simp [rbPhase]
  | succ n ih =>
    intro li hle
    have hbl : SumTo s (li + 1) = SumTo s li + byteAt s li := rfl
    have h1 : SumTo s (li + 1) ≤ SumTo s w := SumTo_mono s (by omega)
    have hsub : u32sub (u32 (SumTo s w - SumTo s li)) (byteAt s li)
        = u32 (SumTo s w - SumTo s (li + 1)) := by
      rw [u32sub_mod_left, u32sub_of_le (by omega)]
      refine congrArg _ ?_
      omega
    simp only [rbPhase, hsub]
    rw [ih (li + 1) (by omega)]
    refine Prod.ext ?_ ?_
    · rw [List.range_succ_eq_map, List.map_cons, List.map_map]
      refine congrArg₂ _ ?_ ?_
      · refine congrArg _ (congrArg _ (congrArg _ (congrArg _ (by omega))))
      · refine List.map_congr_left (fun k _ => ?_)
        simp only [Function.comp]
        refine congrArg _ (congrArg _ (congrArg _ (congrArg _ (by omega))))
    · simp only []
      refine congrArg _ (congrArg _ (congrArg _ (by omega)))

theorem SumTo_zero (s : Nat → Nat) : SumTo s 0 = 0 := rfl

theorem map_range_split {α : Type} (F : Nat → α) (a b c : Nat) :
    (List.range (a + (b + c))).map F
      = (List.range a).map F
          ++ (((List.range b).map fun k => F (a + k))
              ++ ((List.range c).map fun k => F (a + (b + k)))) := by
  rw [List.range_add a (b + c), List.range_add b c, List.map_append, List.map_append,
      List.map_append, List.map_map, List.map_map, List.map_map]
  rfl

theorem boxBlurRow_eq (s : Nat → Nat) (l r w : Nat) :
    boxBlurRow s l r w = (boxBlurRowSpec s l r w, 0) := by
  simp only [boxBlurRow, boxBlurRowSpec, windowSum]
  rcases Nat.le_total (l + r) w with hc | hc
  · -- diameter ≤ width
    rw [Nat.min_eq_right hc, Nat.sub_eq_zero_of_le hc]
    have hp1 : lbPhase s (16777216 / (l + r + 1)) 8388608 (l + r) 0 0
        = ((List.range (l + r)).map
              (fun k => outPix (16777216 / (l + r + 1)) 8388608 (u32 (SumTo s (k + 1)))),
            u32 (SumTo s (l + r))) := by
      have h0 := lbPhase_eq s (16777216 / (l + r + 1)) 8388608 (l + r) 0 0
      rw [u32_zero] at h0
      simpa [SumTo_zero] using h0
    have hp3 : centerPhase s (16777216 / (l + r + 1)) 8388608 (w - (l + r)) (l + r) 0
          (u32 (SumTo s (l + r)))
        = ((List.range (w - (l + r))).map
              (fun k => outPix (16777216 / (l + r + 1)) 8388608
                (u32 (SumTo s (l + r + k + 1) - SumTo s k))),
            u32 (SumTo s w - SumTo s (w - (l + r)))) := by
      have h0 := centerPhase_eq s (16777216 / (l + r + 1)) 8388608 (l + r) (w - (l + r)) 0
      rw [show 0 + (l + r) + (w - (l + r)) = w from by omega] at h0
      simpa [SumTo_zero] using h0
    have hp4 : rbPhase s (16777216 / (l + r + 1)) 8388608 (l + r) (w - (l + r))
          (u32 (SumTo s w - SumTo s (w - (l + r))))
        = ((List.range (l + r)).map
              (fun k => outPix (16777216 / (l + r + 1)) 8388608
                (u32 (SumTo s w - SumTo s (w - (l + r) + k)))),
            0) := by
      have h0 := rbPhase_eq s (16777216 / (l + r + 1)) 8388608 w (l + r) (w - (l + r))
        (by omega)
      rw [show w - (l + r) + (l + r) = w from by omega] at h0
      simpa [u32_zero] using h0
    rw [hp1, hp3, hp4]
    refine Prod.ext ?_ rfl
    simp only [List.replicate_zero, List.append_nil, List.nil_append]
    set F := fun p => outPix (16777216 / (l + r + 1)) 8388608
        (u32 (SumTo s (min (p + 1) w) - SumTo s (p - (l + r)))) with hF
    rw [show w + (l + r) = l + r + (w - (l + r) + (l + r)) from by omega,
        map_range_split F (l + r) (w - (l + r)) (l + r)]
    have hA : (List.range (l + r)).map F
        = (List.range (l + r)).map
            (fun k => outPix (16777216 / (l + r + 1)) 8388608 (u32 (SumTo s (k + 1)))) := by
      refine List.map_congr_left (fun k hk => ?_)
      have hk' : k < l + r := List.mem_range.mp hk
      simp only [hF]
      rw [min_eq_left (by omega : k + 1 ≤ w), Nat.sub_eq_zero_of_le (by omega : k ≤ l + r),
          SumTo_zero, Nat.sub_zero]
    have hB : ((List.range (w - (l + r))).map fun k => F (l + r + k))
        = (List.range (w - (l + r))).map
            (fun k => outPix (16777216 / (l + r + 1)) 8388608
              (u32 (SumTo s (l + r + k + 1) - SumTo s k))) := by
      refine List.map_congr_left (fun k hk => ?_)
      have hk' : k < w - (l + r) := List.mem_range.mp hk
      simp only [hF]
      rw [min_eq_left (by omega : l + r + k + 1 ≤ w),
          show l + r + k - (l + r) = k from by omega]
    have hC : ((List.range (l + r)).map fun k => F (l + r + (w - (l + r) + k)))
        = (List.range (l + r)).map
            (fun k => outPix (16777216 / (l + r + 1)) 8388608
              (u32 (SumTo s w - SumTo s (w - (l + r) + k)))) := by
      refine List.map_congr_left (fun k hk => ?_)
      have hk' : k < l + r := List.mem_range.mp hk
      simp only [hF]
      rw [min_eq_right (by omega : w ≤ l + r + (w - (l + r) + k) + 1),
          show l + r + (w - (l + r) + k) - (l + r) = w - (l + r) + k from by omega]
    rw [hA, hB, hC]
    simp [List.append_assoc]
  · -- width < diameter
    rw [Nat.min_eq_left hc, Nat.sub_eq_zero_of_le hc]
    have hp1 : lbPhase s (16777216 / (l + r + 1)) 8388608 w 0 0
        = ((List.range w).map
              (fun k => outPix (16777216 / (l + r + 1)) 8388608 (u32 (SumTo s (k + 1)))),
            u32 (SumTo s w)) := by
      have h0 := lbPhase_eq s (16777216 / (l + r + 1)) 8388608 w 0 0
      rw [u32_zero] at h0
      simpa [SumTo_zero] using h0
    have hp4 : rbPhase s (16777216 / (l + r + 1)) 8388608 w 0 (u32 (SumTo s w))
        = ((List.range w).map
              (fun k => outPix (16777216 / (l + r + 1)) 8388608
                (u32 (SumTo s w - SumTo s k))),
            0) := by
      have h0 := rbPhase_eq s (16777216 / (l + r + 1)) 8388608 w w 0 (by omega)
      rw [show (0:Nat) + w = w from by omega] at h0
      simpa [SumTo_zero, u32_zero] using h0
    rw [hp1]
    simp only [centerPhase]
    rw [hp4]
    refine Prod.ext ?_ rfl
    simp only [List.append_nil, List.nil_append]
    set F := fun p => outPix (16777216 / (l + r + 1)) 8388608
        (u32 (SumTo s (min (p + 1) w) - SumTo s (p - (l + r)))) with hF
    rw [show w + (l + r) = w + (l + r - w + w) from by omega,
        map_range_split F w (l + r - w) w]
    have hA : (List.range w).map F
        = (List.range w).map
            (fun k => outPix (16777216 / (l + r + 1)) 8388608 (u32 (SumTo s (k + 1)))) := by
      refine List.map_congr_left (fun k hk => ?_)
      have hk' : k < w := List.mem_range.mp hk
      simp only [hF]
      rw [min_eq_left (by omega : k + 1 ≤ w), Nat.sub_eq_zero_of_le (by omega : k ≤ l + r),
          SumTo_zero, Nat.sub_zero]
    have hB : ((List.range (l + r - w)).map fun k => F (w + k))
        = List.replicate (l + r - w)
            (outPix (16777216 / (l + r + 1)) 8388608 (u32 (SumTo s w))) := by
      have h1 : ((List.range (l + r - w)).map fun k => F (w + k))
          = (List.range (l + r - w)).map
              (fun _ => outPix (16777216 / (l + r + 1)) 8388608 (u32 (SumTo s w))) := by
        refine List.map_congr_left (fun k hk => ?_)
        have hk' : k < l + r - w := List.mem_range.mp hk
        simp only [hF]
        rw [min_eq_right (by omega : w ≤ w + k + 1),
            Nat.sub_eq_zero_of_le (by omega : w + k ≤ l + r), SumTo_zero, Nat.sub_zero]
      rw [h1, List.map_const', List.length_range]
    have hC : ((List.range w).map fun k => F (w + (l + r - w + k)))
        = (List.range w).map
            (fun k => outPix (16777216 / (l + r + 1)) 8388608
              (u32 (SumTo s w - SumTo s k))) := by
      refine List.map_congr_left (fun k hk => ?_)
      have hk' : k < w := List.mem_range.mp hk
      simp only [hF]
      rw [min_eq_right (by omega : w ≤ w + (l + r - w + k) + 1),
          show w + (l + r - w + k) - (l + r) = k from by omega]
    rw [hA, hB, hC]
    simp [List.append_assoc]
/-! ## boxBlurInterp final sums -/

theorem ilbPhase_outer (s : Nat → Nat) (oS iS hf : Nat) (n : Nat) :
    ∀ (ri t inner : Nat),
      (ilbPhase s oS iS hf n ri (u32 t) inner).2.1
        = u32 (t + (SumTo s (ri + n) - SumTo s ri)) := by
  induction n with
  | zero => intro ri t inner; simp [ilbPhase]
  | succ n ih =>
    intro ri t inner
    have hb : SumTo s (ri + 1) = SumTo s ri + byteAt s ri := rfl
    have h2 : SumTo s (ri + 1) ≤ SumTo s (ri + 1 + n) := SumTo_mono s (by omega)
    simp only [ilbPhase, u32_add_left]
    rw [ih (ri + 1) (t + byteAt s ri)]
    refine congrArg _ ?_
    rw [show ri + (n + 1) = ri + 1 + n from by omega]
    omega

theorem icPhase_outer (s : Nat → Nat) (oS iS hf m : Nat) (n : Nat) :
    ∀ (li inner : Nat),
      (icPhase s oS iS hf n (li + m) li (u32 (SumTo s (li + m) - SumTo s li)) inner).2.1
        = u32 (SumTo s (li + m + n) - SumTo s (li + n)) := by
  induction n with
  | zero => intro li inner; simp [icPhase]
  | succ n ih =>
    intro li inner
    have hb : SumTo s (li + m + 1) = SumTo s (li + m) + byteAt s (li + m) := rfl
    have hbl : SumTo s (li + 1) = SumTo s li + byteAt s li := rfl
    have h1 : SumTo s li ≤ SumTo s (li + m) := SumTo_mono s (by omega)
    have h2 : SumTo s (li + 1) ≤ SumTo s (li + m + 1) := SumTo_mono s (by omega)
    have hsum2 : u32 (u32 (SumTo s (li + m) - SumTo s li) + byteAt s (li + m))
        = u32 (SumTo s (li + m + 1) - SumTo s li) := by
      rw [u32_add_left]
      refine congrArg _ ?_
      omega
    have hsum3 : u32sub (u32 (SumTo s (li + m + 1) - SumTo s li)) (byteAt s li)
        = u32 (SumTo s (li + 1 + m) - SumTo s (li + 1)) := by
      rw [u32sub_mod_left, u32sub_of_le (by omega)]
      refine congrArg _ ?_
      rw [show li + 1 + m = li + m + 1 from by omega]
      omega
    simp only [icPhase, hsum2, hsum3]
    rw [show li + m + 1 = li + 1 + m from by omega, ih (li + 1)]
    rw [show li + 1 + m + n = li + m + (n + 1) from by omega,
        show li + 1 + n = li + (n + 1) from by omega]

theorem irbPhase_sums (s : Nat → Nat) (oS iS hf w : Nat) (n : Nat) :
    ∀ (li inner : Nat), li + n ≤ w →
      (irbPhase s oS iS hf n li (u32 (SumTo s w - SumTo s li)) inner).2.1
          = u32 (SumTo s w - SumTo s (li + n))
        ∧ (1 ≤ n →
            (irbPhase s oS iS hf n li (u32 (SumTo s w - SumTo s li)) inner).2.2
              = u32 (SumTo s w - SumTo s (li + n))) := by
  induction n with
  | zero => intro li inner _; simp [irbPhase]
  | succ n ih =>
    intro li inner hle
    have hbl : SumTo s (li + 1) = SumTo s li + byteAt s li := rfl
    have h1 : SumTo s (li + 1) ≤ SumTo s w := SumTo_mono s (by omega)
    have hsub : u32sub (u32 (SumTo s w - SumTo s li)) (byteAt s li)
        = u32 (SumTo s w - SumTo s (li + 1)) := by
      rw [u32sub_mod_left, u32sub_of_le (by omega)]
      refine congrArg _ ?_
      omega
    simp only [irbPhase, hsub]
    rcases Nat.eq_zero_or_pos n with hn | hn
    · subst hn
      simp [irbPhase]
    · have hrec := ih (li + 1) (u32 (SumTo s w - SumTo s (li + 1))) (by omega)
      constructor
      · rw [hrec.1, show li + 1 + n = li + (n + 1) from by omega]
      · intro _
        rw [hrec.2 hn, show li + 1 + n = li + (n + 1) from by omega]

theorem boxBlurInterpRow_sums (s : Nat → Nat) (radius width outerWeight : Nat)
    (hrad : 1 ≤ radius) :
    (boxBlurInterpRow s radius width outerWeight).2 = (0, 0) := by
  simp only [boxBlurInterpRow]
  rcases Nat.eq_zero_or_pos width with hw | hw
  · subst hw
    simp [ilbPhase, icPhase, irbPhase]
  · rcases Nat.le_total (radius * 2) width with hc | hc
    · -- diameter ≤ width
      rw [Nat.min_eq_right hc]
      have hp1 : (ilbPhase s (interpOuterScale outerWeight (radius * 2 + 1))
            (interpInnerScale outerWeight (radius * 2 + 1)) 8388608 (radius * 2) 0 0 0).2.1
          = u32 (SumTo s (radius * 2)) := by
        have h0 := ilbPhase_outer s (interpOuterScale outerWeight (radius * 2 + 1))
          (interpInnerScale outerWeight (radius * 2 + 1)) 8388608 (radius * 2) 0 0 0
        rw [u32_zero] at h0
        simpa [SumTo_zero] using h0
      have hp3 : (icPhase s (interpOuterScale outerWeight (radius * 2 + 1))
            (interpInnerScale outerWeight (radius * 2 + 1)) 8388608 (width - radius * 2)
            (radius * 2) 0 (u32 (SumTo s (radius * 2)))
            (ilbPhase s (interpOuterScale outerWeight (radius * 2 + 1))
              (interpInnerScale outerWeight (radius * 2 + 1)) 8388608 (radius * 2) 0 0 0).2.2).2.1
          = u32 (SumTo s width - SumTo s (width - radius * 2)) := by
        have h0 := icPhase_outer s (interpOuterScale outerWeight (radius * 2 + 1))
          (interpInnerScale outerWeight (radius * 2 + 1)) 8388608 (radius * 2)
          (width - radius * 2) 0
          (ilbPhase s (interpOuterScale outerWeight (radius * 2 + 1))
            (interpInnerScale outerWeight (radius * 2 + 1)) 8388608 (radius * 2) 0 0 0).2.2
        rw [show 0 + radius * 2 + (width - radius * 2) = width from by omega] at h0
        simpa [SumTo_zero] using h0
      rw [hp1, hp3]
      have h4 := irbPhase_sums s (interpOuterScale outerWeight (radius * 2 + 1))
        (interpInnerScale outerWeight (radius * 2 + 1)) 8388608 width (radius * 2)
        (width - radius * 2)
        (icPhase s (interpOuterScale outerWeight (radius * 2 + 1))
          (interpInnerScale outerWeight (radius * 2 + 1)) 8388608 (width - radius * 2)
          (radius * 2) 0 (u32 (SumTo s (radius * 2)))
          (ilbPhase s (interpOuterScale outerWeight (radius * 2 + 1))
            (interpInnerScale outerWeight (radius * 2 + 1)) 8388608 (radius * 2) 0 0 0).2.2).2.2
        (by omega)
      rw [show width - radius * 2 + radius * 2 = width from by omega] at h4
      have hfin : u32 (SumTo s width - SumTo s width) = 0 := by
        simp [u32_zero]
      rw [hfin] at h4
      refine Prod.ext ?_ ?_
      · exact h4.1
      · exact h4.2 (by omega)
    · -- width < diameter
      rw [Nat.min_eq_left hc]
      have hp1 : (ilbPhase s (interpOuterScale outerWeight (radius * 2 + 1))
            (interpInnerScale outerWeight (radius * 2 + 1)) 8388608 width 0 0 0).2.1
          = u32 (SumTo s width) := by
        have h0 := ilbPhase_outer s (interpOuterScale outerWeight (radius * 2 + 1))
          (interpInnerScale outerWeight (radius * 2 + 1)) 8388608 width 0 0 0
        rw [u32_zero] at h0
        simpa [SumTo_zero] using h0
      rw [Nat.sub_eq_zero_of_le hc]
      simp only [icPhase]
      rw [hp1]
      have h4 := irbPhase_sums s (interpOuterScale outerWeight (radius * 2 + 1))
        (interpInnerScale outerWeight (radius * 2 + 1)) 8388608 width width 0
        (ilbPhase s (interpOuterScale outerWeight (radius * 2 + 1))
          (interpInnerScale outerWeight (radius * 2 + 1)) 8388608 width 0 0 0).2.2
        (by omega)
      rw [show (0:Nat) + width = width from by omega] at h4
      have hstart : u32 (SumTo s width - SumTo s 0) = u32 (SumTo s width) := by
        rw [SumTo_zero, Nat.sub_zero]
      rw [hstart] at h4
      have hfin : u32 (SumTo s width - SumTo s width) = 0 := by
        simp [u32_zero]
      rw [hfin] at h4
      refine Prod.ext ?_ ?_
      · exact h4.1
      · exact h4.2 (by omega)

/-! ## Summed-area table -/

theorem u32sub_u32_right (a b : Nat) : u32sub a (u32 b) = u32sub a b := by
  unfold u32sub u32; omega

theorem u32sub_congr_left {a a' : Nat} (b : Nat)
    (h : a % 4294967296 = a' % 4294967296) : u32sub a b = u32sub a' b := by
  unfold u32sub; omega

theorem SumTo_eq_sum_range (s : Nat → Nat) (n : Nat) :
    SumTo s n = ∑ x in Finset.range n, byteAt s x := by
  induction n with
  | zero => simp [SumTo]
  | succ n ih => rw [SumTo_succ, Finset.sum_range_succ, ih]

theorem SumTo_add_Ico (s : Nat → Nat) {x0 x1 : Nat} (h : x0 ≤ x1) :
    SumTo s x0 + ∑ x in Finset.Ico x0 x1, byteAt s x = SumTo s x1 := by
  rw [SumTo_eq_sum_range, SumTo_eq_sum_range, Finset.range_eq_Ico]
  exact Finset.sum_Ico_consecutive _ (Nat.zero_le x0) h

theorem gridSum_eq_sum (src : Nat → Nat) (srcRB : Nat) (j i : Nat) :
    gridSum src srcRB j i
      = ∑ y in Finset.range j, SumTo (fun k => src (y * srcRB + k)) i := by
  induction j with
  | zero => simp [gridSum]
  | succ j ih => rw [Finset.sum_range_succ, ← ih]; rfl

theorem gridSum_zero_col (src : Nat → Nat) (srcRB j : Nat) :
    gridSum src srcRB j 0 = 0 := by
  rw [gridSum_eq_sum]
  simp [SumTo_zero]

theorem gridSum_mono_i (src : Nat → Nat) (srcRB j : Nat) {i i' : Nat} (h : i ≤ i') :
    gridSum src srcRB j i ≤ gridSum src srcRB j i' := by
  rw [gridSum_eq_sum, gridSum_eq_sum]
  exact Finset.sum_le_sum (fun y _ => SumTo_mono _ h)

theorem gridSum_mono_j (src : Nat → Nat) (srcRB : Nat) {j j' : Nat} (i : Nat) (h : j ≤ j') :
    gridSum src srcRB j i ≤ gridSum src srcRB j' i := by
  rw [gridSum_eq_sum, gridSum_eq_sum]
  exact Finset.sum_le_sum_of_subset (Finset.range_subset.mpr h)

theorem gridSum_rec (src : Nat → Nat) (srcRB j i : Nat) :
    gridSum src srcRB (j+1) (i+1) + gridSum src srcRB j i
      = byteAt (fun k => src (j * srcRB + k)) i
          + gridSum src srcRB (j+1) i + gridSum src srcRB j (i+1) := by
  have h1 : gridSum src srcRB (j+1) (i+1)
      = gridSum src srcRB j (i+1) + SumTo (fun k => src (j * srcRB + k)) (i+1) := rfl
  have h2 : gridSum src srcRB (j+1) i
      = gridSum src srcRB j i + SumTo (fun k => src (j * srcRB + k)) i := rfl
  have h3 : SumTo (fun k => src (j * srcRB + k)) (i+1)
      = SumTo (fun k => src (j * srcRB + k)) i
          + byteAt (fun k => src (j * srcRB + k)) i := rfl
  omega

theorem sumBuf_eq (src : Nat → Nat) (srcRB : Nat) :
    ∀ j i, sumBuf src srcRB j i = u32 (gridSum src srcRB j i) := by
  intro j
  induction j with
  | zero => intro i; simp [sumBuf, gridSum, u32_zero]
  | succ j ihj =>
    intro i
    induction i with
    | zero =>
      show sumRow (sumBuf src srcRB j) (fun x => src (j * srcRB + x)) 0
          = u32 (gridSum src srcRB (j+1) 0)
      rw [gridSum_zero_col]
      simp [sumRow, u32_zero]
    | succ i ihi =>
      show sumRow (sumBuf src srcRB j) (fun x => src (j * srcRB + x)) (i+1)
          = u32 (gridSum src srcRB (j+1) (i+1))
      have hprev : sumRow (sumBuf src srcRB j) (fun x => src (j * srcRB + x)) i
          = u32 (gridSum src srcRB (j+1) i) := ihi
      simp only [sumRow]
      rw [hprev, ihj (i+1), ihj i, u32sub_u32_right]
      have hmod : (byteAt (fun x => src (j * srcRB + x)) i
              + u32 (gridSum src srcRB (j+1) i) + u32 (gridSum src srcRB j (i+1)))
            % 4294967296
          = (byteAt (fun x => src (j * srcRB + x)) i
              + gridSum src srcRB (j+1) i + gridSum src srcRB j (i+1)) % 4294967296 := by
        unfold u32; omega
      rw [u32sub_congr_left _ hmod]
      have hle : gridSum src srcRB j i ≤ gridSum src srcRB j (i+1) :=
        gridSum_mono_i src srcRB j (by omega)
      rw [u32sub_of_le (by omega)]
      refine congrArg _ ?_
      have hrec := gridSum_rec src srcRB j i
      omega

theorem sumBuf_four_corner (src : Nat → Nat) (srcRB : Nat) {y0 y1 x0 x1 : Nat}
    (hy : y0 ≤ y1) (hx : x0 ≤ x1) :
    u32sub (u32sub (sumBuf src srcRB y0 x0 + sumBuf src srcRB y1 x1)
        (sumBuf src srcRB y0 x1)) (sumBuf src srcRB y1 x0)
      = u32 (regionSum src srcRB y0 y1 x0 x1) := by
  have h1 : gridSum src srcRB y1 x1
      = gridSum src srcRB y0 x1 + ∑ y in Finset.Ico y0 y1,
          SumTo (fun k => src (y * srcRB + k)) x1 := by
    rw [gridSum_eq_sum, gridSum_eq_sum, Finset.range_eq_Ico]
    exact (Finset.sum_Ico_consecutive _ (Nat.zero_le y0) hy).symm
  have h2 : gridSum src srcRB y1 x0
      = gridSum src srcRB y0 x0 + ∑ y in Finset.Ico y0 y1,
          SumTo (fun k => src (y * srcRB + k)) x0 := by
    rw [gridSum_eq_sum, gridSum_eq_sum, Finset.range_eq_Ico]
    exact (Finset.sum_Ico_consecutive _ (Nat.zero_le y0) hy).symm
  have h3 : (∑ y in Finset.Ico y0 y1, SumTo (fun k => src (y * srcRB + k)) x0)
        + regionSum src srcRB y0 y1 x0 x1
      = ∑ y in Finset.Ico y0 y1, SumTo (fun k => src (y * srcRB + k)) x1 := by
    rw [regionSum, ← Finset.sum_add_distrib]
    exact Finset.sum_congr rfl (fun y _ => SumTo_add_Ico _ hx)
  rw [sumBuf_eq, sumBuf_eq, sumBuf_eq, sumBuf_eq, u32sub_u32_right, u32sub_u32_right]
  have hmod : (u32 (gridSum src srcRB y0 x0) + u32 (gridSum src srcRB y1 x1)) % 4294967296
      = (gridSum src srcRB y0 x0 + gridSum src srcRB y1 x1) % 4294967296 := by
    unfold u32; omega
  rw [u32sub_congr_left _ hmod]
  have hm1 : gridSum src srcRB y0 x1 ≤ gridSum src srcRB y1 x1 :=
    gridSum_mono_j src srcRB x1 hy
  have hstep1 : u32sub (gridSum src srcRB y0 x0 + gridSum src srcRB y1 x1)
        (gridSum src srcRB y0 x1)
      = u32 (gridSum src srcRB y0 x0 + gridSum src srcRB y1 x1
          - gridSum src srcRB y0 x1) := u32sub_of_le (by omega)
  rw [hstep1, u32sub_mod_left]
  have hstep2 : u32sub (gridSum src srcRB y0 x0 + gridSum src srcRB y1 x1
        - gridSum src srcRB y0 x1) (gridSum src srcRB y1 x0)
      = u32 (gridSum src srcRB y0 x0 + gridSum src srcRB y1 x1
          - gridSum src srcRB y0 x1 - gridSum src srcRB y1 x0) := u32sub_of_le (by omega)
  rw [hstep2]
  refine congrArg _ ?_
  omega

/-! ## apply_kernel refinement and style pixels -/

theorem applyKernelPix_eq_ref (S : Nat → Nat) (rx ry sw sh x y : Nat) :
    applyKernelPix S rx ry sw sh x y = applyKernelRefPix S rx ry sw sh x y := by
  unfold applyKernelPix applyKernelRefPix kernelClampedPix
  by_cases h1 : 2*rx > sw
  · simp only [if_pos h1]
  · simp only [if_neg h1]
    by_cases h2 : x < 2*rx
    · simp only [if_pos h2]
      rw [Nat.sub_eq_zero_of_le (show x ≤ 2*rx from by omega),
          min_eq_left (by omega : x + 1 ≤ sw)]
    · by_cases h3 : x < sw
      · simp only [if_neg h2, if_pos h3]
        rw [min_eq_left (by omega : x + 1 ≤ sw)]
      · simp only [if_neg h2, if_neg h3]
        rw [min_eq_right (by omega : sw ≤ x + 1)]

theorem SkMulDiv255Round_le {s d : Nat} (hd : d ≤ 255) : SkMulDiv255Round s d ≤ s := by
  unfold SkMulDiv255Round
  have h1 : s * d ≤ s * 255 := Nat.mul_le_mul_left s hd
  omega

theorem solidStylePix_spec {s d : Nat} (hs : s ≤ 255) (hd : d ≤ 255) :
    solidStylePix s d = s + d - SkMulDiv255Round s d ∧ d ≤ solidStylePix s d := by
  have h1 : SkMulDiv255Round s d ≤ s := SkMulDiv255Round_le hd
  have hexp : (255 - s) * (255 - d) + 255 * s + 255 * d = 255 * 255 + s * d := by
    zify [hs, hd]
    ring
  have h2 : s + d - SkMulDiv255Round s d ≤ 255 := by
    unfold SkMulDiv255Round
    omega
  unfold solidStylePix skToU8
  omega

theorem outerStylePix_opaque (d : Nat) : outerStylePix 255 d = 0 := by
  simp [outerStylePix, skToU8]

theorem innerMergePix_le {blur s : Nat} (hb : blur ≤ 255) (hs : s ≤ 255) :
    innerMergePix blur s ≤ s := by
  unfold innerMergePix skToU8
  have h1 : blur * s ≤ 255 * s := Nat.mul_le_mul_right s hb
  omega

/-! ## SkBlurMask::Blur control-flow lemmas -/

theorem blurRx_pos {radius : ℚ} (q : SkBlurQuality) (h : 0 < radius) :
    0 < blurRx radius q := by
  unfold blurRx SkScalarCeil blurPassRadius
  have hf : (0:ℚ) < kBlurRadiusFudgeFactor := by norm_num [kBlurRadiusFudgeFactor]
  refine Int.lt_ceil.mpr ?_
  push_cast
  split_ifs
  · exact mul_pos h hf
  · exact h

theorem blur_fields (srcBounds : SkIRect) (srcRowBytes : Int) (hasImage : Bool)
    (radius : ℚ) (style : SkBlurStyle) (quality : SkBlurQuality) (sep : Bool)
    (hrx : 0 < blurRx radius quality) :
    (SkBlurMaskBlur true srcBounds srcRowBytes hasImage radius style quality sep).passCount
        = blurPassCount radius quality
      ∧ (SkBlurMaskBlur true srcBounds srcRowBytes hasImage radius style quality sep).passRadius
        = blurPassRadius radius quality
      ∧ (SkBlurMaskBlur true srcBounds srcRowBytes hasImage radius style quality sep).rx
        = blurRx radius quality
      ∧ (SkBlurMaskBlur true srcBounds srcRowBytes hasImage radius style quality sep).margin
        = some ((blurPassCount radius quality : Int) * blurRx radius quality,
            (blurPassCount radius quality : Int) * blurRx radius quality) := by
  simp only [SkBlurMaskBlur]
  rw [if_neg (by simp), if_neg (by omega : ¬ blurRx radius quality ≤ 0)]
  split_ifs <;> exact ⟨rfl, rfl, rfl, rfl⟩
theorem blur_null_image (srcBounds : SkIRect) (srcRowBytes : Int)
    (radius : ℚ) (style : SkBlurStyle) (quality : SkBlurQuality) (sep : Bool)
    (hrx : 0 < blurRx radius quality) :
    (SkBlurMaskBlur true srcBounds srcRowBytes false radius style quality sep).ok = true
      ∧ (SkBlurMaskBlur true srcBounds srcRowBytes false radius style quality sep).margin
        = some ((blurPassCount radius quality : Int) * blurRx radius quality,
            (blurPassCount radius quality : Int) * blurRx radius quality)
      ∧ (SkBlurMaskBlur true srcBounds srcRowBytes false radius style quality sep).imageSet
        = false
      ∧ (SkBlurMaskBlur true srcBounds srcRowBytes false radius style quality sep).allocCount
        = 0
      ∧ (style ≠ .inner →
          (SkBlurMaskBlur true srcBounds srcRowBytes false radius style quality sep).bounds
              = some (blurDstBounds srcBounds radius quality)
            ∧ (SkBlurMaskBlur true srcBounds srcRowBytes false radius style quality sep).rowBytes
              = some (blurDstBounds srcBounds radius quality).width)
      ∧ (style = .inner →
          (SkBlurMaskBlur true srcBounds srcRowBytes false radius style quality sep).bounds
              = some srcBounds
            ∧ (SkBlurMaskBlur true srcBounds srcRowBytes false radius style quality sep).rowBytes
              = some srcRowBytes) := by
  simp only [SkBlurMaskBlur]
  rw [if_neg (by simp), if_neg (by omega : ¬ blurRx radius quality ≤ 0),
      if_neg (by simp : ¬ (false = true))]
  by_cases hs : style = SkBlurStyle.inner
  · rw [if_pos hs]
    exact ⟨rfl, rfl, rfl, rfl, fun h => absurd hs h, fun _ => ⟨rfl, rfl⟩⟩
  · rw [if_neg hs]
    exact ⟨rfl, rfl, rfl, rfl, fun _ => ⟨rfl, rfl⟩, fun h => absurd h hs⟩

theorem blur_returns (isA8 : Bool) (srcBounds : SkIRect) (srcRowBytes : Int)
    (hasImage : Bool) (radius : ℚ) (style : SkBlurStyle) (quality : SkBlurQuality)
    (sep : Bool) :
    ((SkBlurMaskBlur isA8 srcBounds srcRowBytes hasImage radius style quality sep).ok = false
      ↔ (isA8 = false ∨ blurRx radius quality ≤ 0
          ∨ (hasImage = true
              ∧ (computeImageSize (blurDstBounds srcBounds radius quality)
                    (blurDstBounds srcBounds radius quality).width = 0
                ∨ (style = .inner ∧ computeImageSize srcBounds srcRowBytes = 0)))))
    ∧ ((isA8 = false ∨ blurRx radius quality ≤ 0) →
        (SkBlurMaskBlur isA8 srcBounds srcRowBytes hasImage radius style quality sep).allocCount
          = 0)
    ∧ ((SkBlurMaskBlur isA8 srcBounds srcRowBytes hasImage radius style quality sep).ok = false →
        (SkBlurMaskBlur isA8 srcBounds srcRowBytes hasImage radius style quality sep).leaked
          = 0) := by
  rcases isA8 with _ | _
  · simp [SkBlurMaskBlur, BlurResult.leaked]
  · simp only [SkBlurMaskBlur]
    rw [if_neg (by simp)]
    by_cases h1 : blurRx radius quality ≤ 0
    · rw [if_pos h1]
      simp [h1, BlurResult.leaked]
    · rw [if_neg h1]
      rcases hasImage with _ | _
      · by_cases hs : style = SkBlurStyle.inner
        · rw [if_neg (by simp : ¬ (false = true)), if_pos hs]
          simp [h1, BlurResult.leaked]
        · rw [if_neg (by simp : ¬ (false = true)), if_neg hs]
          simp [h1, BlurResult.leaked]
      · rw [if_pos (by simp : (true = true))]
        by_cases h2 : computeImageSize (blurDstBounds srcBounds radius quality)
            (blurDstBounds srcBounds radius quality).width = 0
        · rw [if_pos h2]
          simp [h1, h2, BlurResult.leaked]
        · rw [if_neg h2]
          by_cases hs : style = SkBlurStyle.inner
          · rw [if_pos hs]
            by_cases h3 : computeImageSize srcBounds srcRowBytes = 0
            · rw [if_pos h3]
              simp [h1, h2, h3, hs, BlurResult.leaked]
            · rw [if_neg h3]
              simp [h1, h2, h3, hs, BlurResult.leaked]
          · rw [if_neg hs]
            simp [h1, h2, hs, BlurResult.leaked]

theorem SkScalarRound_sub_int (x : ℚ) (n : Int) :
    SkScalarRound (x - n) = SkScalarRound x - n := by
  unfold SkScalarRound
  rw [show x - (n:ℚ) + 1/2 = (x + 1/2) - n from by ring, Int.floor_sub_int]

theorem SkScalarRound_add_int (x : ℚ) (n : Int) :
    SkScalarRound (x + n) = SkScalarRound x + n := by
  unfold SkScalarRound
  rw [show x + (n:ℚ) + 1/2 = (x + 1/2) + n from by ring, Int.floor_add_int]

theorem blur_inner_restore (isA8 : Bool) (srcBounds : SkIRect) (srcRowBytes : Int)
    (hasImage : Bool) (radius : ℚ) (quality : SkBlurQuality) (sep : Bool) :
    (SkBlurMaskBlur isA8 srcBounds srcRowBytes hasImage radius .inner quality sep).ok = true →
      (SkBlurMaskBlur isA8 srcBounds srcRowBytes hasImage radius .inner quality sep).bounds
          = some srcBounds
        ∧ (SkBlurMaskBlur isA8 srcBounds srcRowBytes hasImage radius .inner quality sep).rowBytes
          = some srcRowBytes := by
  rcases isA8 with _ | _
  · simp [SkBlurMaskBlur]
  · simp only [SkBlurMaskBlur]
    rw [if_neg (by simp)]
    by_cases h1 : blurRx radius quality ≤ 0
    · rw [if_pos h1]
      simp
    · rw [if_neg h1]
      rcases hasImage with _ | _
      · rw [if_neg (by simp : ¬ (false = true)),
            if_pos trivial]
        exact fun _ => ⟨rfl, rfl⟩
      · rw [if_pos (by simp : (true = true))]
        by_cases h2 : computeImageSize (blurDstBounds srcBounds radius quality)
            (blurDstBounds srcBounds radius quality).width = 0
        · rw [if_pos h2]
          simp
        · rw [if_neg h2, if_pos trivial]
          by_cases h3 : computeImageSize srcBounds srcRowBytes = 0
          · rw [if_pos h3]
            simp
          · rw [if_neg h3]
            exact fun _ => ⟨rfl, rfl⟩

theorem blurRect_bounds_only (rl rt rr rb providedRadius : ℚ) (style : SkBlurStyle) :
    (SkBlurMaskBlurRect rl rt rr rb providedRadius style .justComputeBounds).ok = true
      ∧ (SkBlurMaskBlurRect rl rt rr rb providedRadius style .justComputeBounds).margin
        = some (computeProfileSize (blurRectAdjRadius providedRadius) / 2,
            computeProfileSize (blurRectAdjRadius providedRadius) / 2)
      ∧ (SkBlurMaskBlurRect rl rt rr rb providedRadius style .justComputeBounds).imageSet
        = false
      ∧ (SkBlurMaskBlurRect rl rt rr rb providedRadius style .justComputeBounds).allocCount
        = 0
      ∧ (style ≠ .inner →
          (SkBlurMaskBlurRect rl rt rr rb providedRadius style .justComputeBounds).bounds
            = some ⟨SkScalarRound rl - computeProfileSize (blurRectAdjRadius providedRadius) / 2,
                SkScalarRound rt - computeProfileSize (blurRectAdjRadius providedRadius) / 2,
                SkScalarRound rr + computeProfileSize (blurRectAdjRadius providedRadius) / 2,
                SkScalarRound rb + computeProfileSize (blurRectAdjRadius providedRadius) / 2⟩)
      ∧ (style = .inner →
          (SkBlurMaskBlurRect rl rt rr rb providedRadius style .justComputeBounds).bounds
            = some ⟨SkScalarRound rl, SkScalarRound rt, SkScalarRound rr, SkScalarRound rb⟩) := by
  simp only [SkBlurMaskBlurRect]
  rw [if_pos trivial]
  by_cases hs : style = SkBlurStyle.inner
  · rw [if_pos hs]
    exact ⟨rfl, rfl, rfl, rfl, fun h => absurd hs h, fun _ => rfl⟩
  · rw [if_neg hs]
    refine ⟨rfl, rfl, rfl, rfl, fun _ => ?_, fun h => absurd h hs⟩
    rw [SkScalarRound_sub_int, SkScalarRound_sub_int, SkScalarRound_add_int,
        SkScalarRound_add_int]

/-! ## Claims -/

/-- C1 (amended): every row iteration of `boxBlur` ends with its running
sum accumulator exactly 0, for every source buffer, radii, width and row;
and every row iteration of `boxBlurInterp` ends with both `outer_sum` and
`inner_sum` exactly 0 provided `radius ≥ 1` (as at every call site, which
passes `rx ≥ 1`): every pixel value the sliding window added was later
subtracted.  At `radius = 0` the `boxBlurInterp` end-of-row assertion on
`inner_sum` fails, see the counterexample. -/
theorem C1_end_of_row_zero_sums (src : Nat → Nat) (stride y l r w rad ow : Nat) :
    (boxBlurRow (fun i => src (y * stride + i)) l r w).2 = 0
      ∧ (1 ≤ rad →
          (boxBlurInterpRow (fun i => src (y * stride + i)) rad w ow).2 = (0, 0)) := by
  constructor
  · rw [boxBlurRow_eq]
  · exact fun h => boxBlurInterpRow_sums _ rad w ow h

/-- C1 witness: the zero-sum property at a concrete row. -/
theorem C1_witness :
    (boxBlurRow (fun i => (fun k => k % 7) (2 * 5 + i)) 1 2 3).2 = 0
      ∧ (boxBlurInterpRow (fun i => (fun k => k % 7) (2 * 5 + i)) 1 3 99).2 = (0, 0) :=
  ⟨(C1_end_of_row_zero_sums (fun k => k % 7) 5 2 1 2 3 1 99).1,
   (C1_end_of_row_zero_sums (fun k => k % 7) 5 2 1 2 3 1 99).2 (by decide)⟩

/-- C1 counterexample: calling `boxBlurInterp` with radius 0 on the
one-pixel row `[1]` ends the row with `inner_sum = 2^32 - 1`, not 0:
the claim quantified over all radii is false. -/
theorem C1_counterexample :
    (boxBlurInterpRow (fun _ => 1) 0 1 128).2 ≠ (0, 0) := by decide

/-- C2: `build_sum_buffer` zeroes the entire first row and first column,
fills entry `[j+1][i+1]` with the `uint32` (mod 2^32) sum of
`src[y][x]` over `0 ≤ x ≤ i`, `0 ≤ y ≤ j` (stride `srcRB ≥ srcW`), and
consequently the total of any rectangular region of the source is
retrievable by the 4-corner inclusion-exclusion
`sum[y0][x0] + sum[y1][x1] - sum[y0][x1] - sum[y1][x0]` in `uint32`
arithmetic. -/
theorem C2_sum_buffer (src : Nat → Nat) (srcRB srcW srcH i j i2 j2 x0 x1 y0 y1 : Nat)
    (hrb : srcW ≤ srcRB) (hi : i < srcW) (hj : j < srcH)
    (hx0 : x0 ≤ x1) (hx1 : x1 ≤ srcW) (hy0 : y0 ≤ y1) (hy1 : y1 ≤ srcH) :
    sumBuf src srcRB 0 i2 = 0
      ∧ sumBuf src srcRB j2 0 = 0
      ∧ sumBuf src srcRB (j+1) (i+1) = u32 (gridSum src srcRB (j+1) (i+1))
      ∧ u32sub (u32sub (sumBuf src srcRB y0 x0 + sumBuf src srcRB y1 x1)
            (sumBuf src srcRB y0 x1)) (sumBuf src srcRB y1 x0)
          = u32 (regionSum src srcRB y0 y1 x0 x1) := by
  refine ⟨rfl, ?_, sumBuf_eq src srcRB (j+1) (i+1), sumBuf_four_corner src srcRB hy0 hx0⟩
  cases j2 with
  | zero => rfl
  | succ j3 => rfl

/-- C2 witness at a concrete 3-by-2 image with stride 3. -/
theorem C2_witness :
    sumBuf (fun k => k + 1) 3 0 2 = 0
      ∧ sumBuf (fun k => k + 1) 3 1 0 = 0
      ∧ sumBuf (fun k => k + 1) 3 (0+1) (1+1) = u32 (gridSum (fun k => k + 1) 3 (0+1) (1+1))
      ∧ u32sub (u32sub (sumBuf (fun k => k + 1) 3 0 1 + sumBuf (fun k => k + 1) 3 2 2)
            (sumBuf (fun k => k + 1) 3 0 2)) (sumBuf (fun k => k + 1) 3 2 1)
          = u32 (regionSum (fun k => k + 1) 3 0 2 1 2) :=
  C2_sum_buffer (fun k => k + 1) 3 3 2 1 0 2 1 1 2 0 2 (by decide) (by decide) (by decide)
    (by decide) (by decide) (by decide) (by decide)

/-- C3: at every output pixel of the `(sw+2rx)`-by-`(sh+2ry)` destination,
`apply_kernel` (with its segmented left/center/right fast loops and its
`kernel_clamped` dispatch when `2*rx > sw`) writes exactly
`SkToU8(tmp * scale >> 24)` where `tmp` is the 4-corner
inclusion-exclusion sample with window coordinates clamped to `[0, sw]`
and `[0, sh]` — i.e. exactly the value of the single clamped reference
loop, which `kernel_clamped` also equals. -/
theorem C3_apply_kernel_refinement (S : Nat → Nat) (rx ry sw sh x y : Nat)
    (hx : x < sw + 2*rx) (hy : y < sh + 2*ry) :
    applyKernelPix S rx ry sw sh x y = applyKernelRefPix S rx ry sw sh x y
      ∧ kernelClampedPix S rx ry sw sh x y = applyKernelRefPix S rx ry sw sh x y :=
  ⟨applyKernelPix_eq_ref S rx ry sw sh x y, rfl⟩

/-- C3 witness at a concrete prefix-sum buffer and pixel. -/
theorem C3_witness :
    applyKernelPix (fun i => i * 3) 2 1 3 4 5 2 = applyKernelRefPix (fun i => i * 3) 2 1 3 4 5 2
      ∧ kernelClampedPix (fun i => i * 3) 2 1 3 4 5 2
        = applyKernelRefPix (fun i => i * 3) 2 1 3 4 5 2 :=
  C3_apply_kernel_refinement (fun i => i * 3) 2 1 3 4 5 2 (by decide) (by decide)

/-- C4 (amended): `boxBlur` produces, and returns as the new width, a
destination of width exactly `width + 2 * max(leftRadius, rightRadius)`
(not `width + leftRadius + rightRadius`, which differs when the radii are
unequal): each output row is `rightRadius - leftRadius` leading zeros,
then at column `p` of the `width + leftRadius + rightRadius` middle
columns the 1-D box average `(sum*scale+half) >> 24` of the zero-padded
source window `[p - diameter, p]`, then `leftRadius - rightRadius`
trailing zeros. -/
theorem C4_box_blur_width (src : Nat → Nat) (stride l r w hgt : Nat) (t : Bool)
    (s : Nat → Nat) :
    (boxBlur src stride l r w hgt t).2 = w + max l r * 2
      ∧ (boxBlur src stride l r w hgt t).1
        = (List.range hgt).map (fun y => boxBlurRowSpec (fun i => src (y * stride + i)) l r w)
      ∧ (boxBlurRowSpec s l r w).length = w + max l r * 2 := by
  refine ⟨rfl, ?_, ?_⟩
  · simp only [boxBlur]
    refine List.map_congr_left (fun y _ => ?_)
    rw [boxBlurRow_eq]
  · simp only [boxBlurRowSpec, List.length_append, List.length_map, List.length_range,
      List.length_replicate]
    omega

/-- C4 counterexample: with `leftRadius = 0`, `rightRadius = 1`,
`width = 1`, `boxBlur` returns new width 3, not
`width + leftRadius + rightRadius = 2`. -/
theorem C4_counterexample :
    ¬ ((boxBlur (fun _ => 255) 1 0 1 1 1 false).2 = 1 + 0 + 1) := by decide

/-- C5 (amended): for an A8 source, quality = high performs 3 box-blur
passes per axis with the per-pass radius pre-scaled by
`kBlurRadiusFudgeFactor = 0.57735` provided `radius ≥ 3`; for
`radius < 3` high quality is forced off (1 pass, unscaled radius), and
quality = low always performs 1 pass per axis with the unscaled radius.
The reported margin is `passCount * rx` in each axis. -/
theorem C5_pass_structure (srcBounds : SkIRect) (srcRowBytes : Int) (hasImage : Bool)
    (radius : ℚ) (style : SkBlurStyle) (quality : SkBlurQuality) (sep : Bool) :
    (quality = .high → 3 ≤ radius →
        (SkBlurMaskBlur true srcBounds srcRowBytes hasImage radius style quality sep).passCount
            = 3
          ∧ (SkBlurMaskBlur true srcBounds srcRowBytes hasImage radius style quality
              sep).passRadius = radius * kBlurRadiusFudgeFactor
          ∧ (SkBlurMaskBlur true srcBounds srcRowBytes hasImage radius style quality sep).margin
            = some (3 * blurRx radius quality, 3 * blurRx radius quality))
      ∧ (quality = .high → radius < 3 → 0 < radius →
          (SkBlurMaskBlur true srcBounds srcRowBytes hasImage radius style quality sep).passCount
              = 1
            ∧ (SkBlurMaskBlur true srcBounds srcRowBytes hasImage radius style quality
                sep).passRadius = radius
            ∧ (SkBlurMaskBlur true srcBounds srcRowBytes hasImage radius style quality
                sep).margin = some (blurRx radius quality, blurRx radius quality))
      ∧ (quality = .low → 0 < radius →
          (SkBlurMaskBlur true srcBounds srcRowBytes hasImage radius style quality sep).passCount
              = 1
            ∧ (SkBlurMaskBlur true srcBounds srcRowBytes hasImage radius style quality
                sep).passRadius = radius
            ∧ (SkBlurMaskBlur true srcBounds srcRowBytes hasImage radius style quality
                sep).margin = some (blurRx radius quality, blurRx radius quality)) := by
  refine ⟨?_, ?_, ?_⟩
  · intro hq hr
    subst hq
    have heff : effQuality radius .high = .high := by
      unfold effQuality
      rw [if_neg (by linarith : ¬ radius < 3)]
    have hpc : blurPassCount radius .high = 3 := by
      unfold blurPassCount
      rw [heff]
      simp
    have hpr : blurPassRadius radius .high = radius * kBlurRadiusFudgeFactor := by
      unfold blurPassRadius
      rw [heff]
      simp
    have hrx := blurRx_pos SkBlurQuality.high (by linarith : (0:ℚ) < radius)
    obtain ⟨f1, f2, f3, f4⟩ :=
      blur_fields srcBounds srcRowBytes hasImage radius style .high sep hrx
    refine ⟨by rw [f1, hpc], by rw [f2, hpr], ?_⟩
    rw [f4, hpc]
    norm_num
  · intro hq hr hpos
    subst hq
    have heff : effQuality radius .high = .low := by
      unfold effQuality
      rw [if_pos hr]
    have hpc : blurPassCount radius .high = 1 := by
      unfold blurPassCount
      rw [heff]
      simp
    have hpr : blurPassRadius radius .high = radius := by
      unfold blurPassRadius
      rw [heff]
      simp
    have hrx := blurRx_pos SkBlurQuality.high hpos
    obtain ⟨f1, f2, f3, f4⟩ :=
      blur_fields srcBounds srcRowBytes hasImage radius style .high sep hrx
    refine ⟨by rw [f1, hpc], by rw [f2, hpr], ?_⟩
    rw [f4, hpc]
    norm_num
  · intro hq hr
    subst hq
    have heff : effQuality radius .low = .low := by
      unfold effQuality
      split_ifs <;> rfl
    have hpc : blurPassCount radius .low = 1 := by
      unfold blurPassCount
      rw [heff]
      simp
    have hpr : blurPassRadius radius .low = radius := by
      unfold blurPassRadius
      rw [heff]
      simp
    have hrx := blurRx_pos SkBlurQuality.low hr
    obtain ⟨f1, f2, f3, f4⟩ :=
      blur_fields srcBounds srcRowBytes hasImage radius style .low sep hrx
    refine ⟨by rw [f1, hpc], by rw [f2, hpr], ?_⟩
    rw [f4, hpc]
    norm_num

/-- C5 witness: radius 4 at high quality (3 passes, pre-scaled radius),
radius 1 at high quality (forced off: 1 unscaled pass), and radius 1 at
low quality (1 pass). -/
theorem C5_witness :
    ((SkBlurMaskBlur true ⟨0,0,4,4⟩ 4 true 4 .normal .high false).passCount = 3
        ∧ (SkBlurMaskBlur true ⟨0,0,4,4⟩ 4 true 4 .normal .high false).passRadius
          = 4 * kBlurRadiusFudgeFactor
        ∧ (SkBlurMaskBlur true ⟨0,0,4,4⟩ 4 true 4 .normal .high false).margin
          = some (3 * blurRx 4 .high, 3 * blurRx 4 .high))
      ∧ ((SkBlurMaskBlur true ⟨0,0,4,4⟩ 4 true 1 .normal .high false).passCount = 1
        ∧ (SkBlurMaskBlur true ⟨0,0,4,4⟩ 4 true 1 .normal .high false).passRadius = 1
        ∧ (SkBlurMaskBlur true ⟨0,0,4,4⟩ 4 true 1 .normal .high false).margin
          = some (blurRx 1 .high, blurRx 1 .high))
      ∧ ((SkBlurMaskBlur true ⟨0,0,4,4⟩ 4 true 1 .normal .low false).passCount = 1
        ∧ (SkBlurMaskBlur true ⟨0,0,4,4⟩ 4 true 1 .normal .low false).passRadius = 1
        ∧ (SkBlurMaskBlur true ⟨0,0,4,4⟩ 4 true 1 .normal .low false).margin
          = some (blurRx 1 .low, blurRx 1 .low)) :=
  ⟨(C5_pass_structure ⟨0,0,4,4⟩ 4 true 4 .normal .high false).1 rfl (by norm_num),
   (C5_pass_structure ⟨0,0,4,4⟩ 4 true 1 .normal .high false).2.1 rfl (by norm_num)
     (by norm_num),
   (C5_pass_structure ⟨0,0,4,4⟩ 4 true 1 .normal .low false).2.2 rfl (by norm_num)⟩

/-- C5 counterexample: a valid high-quality call with radius 1 (positive,
A8) performs 1 pass, not 3: high quality is forced off below radius 3. -/
theorem C5_counterexample :
    (SkBlurMaskBlur true ⟨0,0,4,4⟩ 4 false 1 .normal .high false).passCount ≠ 3 := by
  decide

/-- C6: for source pixel `s` and blurred pixel `d` (bytes), the solid
style replaces `d` by `s + d - round(s*d/255)`, which is pointwise `≥ d`;
the outer style produces 0 wherever `s = 255`; the inner-style merge
produces a value `≤ s` at every pixel; and the mask returned by an
inner-style `Blur` has exactly the source mask's bounds and rowBytes. -/
theorem C6_style_laws (s d b : Nat) (srcBounds : SkIRect) (srcRowBytes : Int)
    (hasImage : Bool) (radius : ℚ) (quality : SkBlurQuality) (sep : Bool)
    (hs : s ≤ 255) (hd : d ≤ 255) (hb : b ≤ 255) :
    (solidStylePix s d = s + d - SkMulDiv255Round s d ∧ d ≤ solidStylePix s d)
      ∧ outerStylePix 255 d = 0
      ∧ innerMergePix b s ≤ s
      ∧ ((SkBlurMaskBlur true srcBounds srcRowBytes hasImage radius .inner quality sep).ok
            = true →
          (SkBlurMaskBlur true srcBounds srcRowBytes hasImage radius .inner quality sep).bounds
              = some srcBounds
            ∧ (SkBlurMaskBlur true srcBounds srcRowBytes hasImage radius .inner quality
                sep).rowBytes = some srcRowBytes) :=
  ⟨solidStylePix_spec hs hd, outerStylePix_opaque d, innerMergePix_le hb hs,
   blur_inner_restore true srcBounds srcRowBytes hasImage radius quality sep⟩

/-- C6 witness at concrete pixels and a concrete inner-style call. -/
theorem C6_witness :
    (solidStylePix 200 100 = 200 + 100 - SkMulDiv255Round 200 100
        ∧ 100 ≤ solidStylePix 200 100)
      ∧ outerStylePix 255 100 = 0
      ∧ innerMergePix 130 200 ≤ 200
      ∧ ((SkBlurMaskBlur true ⟨0,0,4,4⟩ 4 false 1 .inner .low false).bounds
            = some ⟨0,0,4,4⟩
          ∧ (SkBlurMaskBlur true ⟨0,0,4,4⟩ 4 false 1 .inner .low false).rowBytes = some 4) :=
  ⟨(C6_style_laws 200 100 130 ⟨0,0,4,4⟩ 4 false 1 .low false (by decide) (by decide)
      (by decide)).1,
   (C6_style_laws 200 100 130 ⟨0,0,4,4⟩ 4 false 1 .low false (by decide) (by decide)
      (by decide)).2.1,
   (C6_style_laws 200 100 130 ⟨0,0,4,4⟩ 4 false 1 .low false (by decide) (by decide)
      (by decide)).2.2.1,
   (C6_style_laws 200 100 130 ⟨0,0,4,4⟩ 4 false 1 .low false (by decide) (by decide)
      (by decide)).2.2.2 (by decide)⟩

/-- C7 (amended): `Blur` on a 4x4 all-255 A8 mask with rowBytes 4,
radius 1, quality low, style normal returns true with margin `(1,1)` and
a 6x6 output mask; but on this (summed-area-table) path every pixel of
the interior 2x2 block equals 254 — not 255, because
`scale = (1<<24)/9 = 1864135` truncates (`9 * 1864135 = 2^24 - 1`) and
`apply_kernel` adds no rounding half — and the corner pixel `(0,0)`
equals 28 = `(255 * scale) >> 24`: the 3x3 box kernel centered at source
coordinate `(-1,-1)` overlaps the source in exactly 1 pixel (1/9
coverage, truncated), not a 2x2 block. -/
theorem C7_concrete_scenario :
    (SkBlurMaskBlur true ⟨0,0,4,4⟩ 4 true 1 .normal .low false).ok = true
      ∧ (SkBlurMaskBlur true ⟨0,0,4,4⟩ 4 true 1 .normal .low false).margin = some (1, 1)
      ∧ (SkBlurMaskBlur true ⟨0,0,4,4⟩ 4 true 1 .normal .low false).bounds
        = some ⟨-1, -1, 5, 5⟩
      ∧ (SkBlurMaskBlur true ⟨0,0,4,4⟩ 4 true 1 .normal .low false).rowBytes = some 6
      ∧ satBlurPix (fun _ => 255) 4 4 4 1 1 2 2 = 254
      ∧ satBlurPix (fun _ => 255) 4 4 4 1 1 3 2 = 254
      ∧ satBlurPix (fun _ => 255) 4 4 4 1 1 2 3 = 254
      ∧ satBlurPix (fun _ => 255) 4 4 4 1 1 3 3 = 254
      ∧ satBlurPix (fun _ => 255) 4 4 4 1 1 0 0 = 28 := by
  decide

/-- C7 counterexample: on the claimed scenario the interior pixel `(2,2)`
is not 255 and the corner pixel `(0,0)` is not
`round(255 * 4/9) = 113`. -/
theorem C7_counterexample :
    ¬ (satBlurPix (fun _ => 255) 4 4 4 1 1 2 2 = 255
        ∧ satBlurPix (fun _ => 255) 4 4 4 1 1 0 0 = 113) := by
  decide

/-- C8: `Blur` returns false exactly when (1) the source format is not
8-bit alpha or `rx = ceil(passRadius) ≤ 0` — both checked before any
allocation (`allocCount = 0` on those paths) — or (2) an image is present
and a computed image size (the destination size, or the source size for
the inner style) is zero/overflows, checked after the output bounds are
computed; and no allocated buffer is leaked on any false-returning
path. -/
theorem C8_return_value (isA8 : Bool) (srcBounds : SkIRect) (srcRowBytes : Int)
    (hasImage : Bool) (radius : ℚ) (style : SkBlurStyle) (quality : SkBlurQuality)
    (sep : Bool) :
    ((SkBlurMaskBlur isA8 srcBounds srcRowBytes hasImage radius style quality sep).ok = false
      ↔ (isA8 = false ∨ blurRx radius quality ≤ 0
          ∨ (hasImage = true
              ∧ (computeImageSize (blurDstBounds srcBounds radius quality)
                    (blurDstBounds srcBounds radius quality).width = 0
                ∨ (style = .inner ∧ computeImageSize srcBounds srcRowBytes = 0)))))
    ∧ ((isA8 = false ∨ blurRx radius quality ≤ 0) →
        (SkBlurMaskBlur isA8 srcBounds srcRowBytes hasImage radius style quality sep).allocCount
          = 0)
    ∧ ((SkBlurMaskBlur isA8 srcBounds srcRowBytes hasImage radius style quality sep).ok
          = false →
        (SkBlurMaskBlur isA8 srcBounds srcRowBytes hasImage radius style quality sep).leaked
          = 0) :=
  blur_returns isA8 srcBounds srcRowBytes hasImage radius style quality sep

/-- C8 witness: a non-A8 source returns false with nothing allocated, and
an A8 call with an empty (zero-size) destination returns false with
nothing leaked. -/
theorem C8_witness :
    (SkBlurMaskBlur false ⟨0,0,4,4⟩ 4 true 1 .normal .low false).ok = false
      ∧ (SkBlurMaskBlur false ⟨0,0,4,4⟩ 4 true 1 .normal .low false).allocCount = 0
      ∧ (SkBlurMaskBlur true ⟨0,0,0,0⟩ 0 true (-1) .normal .low false).ok = false
      ∧ (SkBlurMaskBlur true ⟨0,0,0,0⟩ 0 true (-1) .normal .low false).leaked = 0 :=
  ⟨(C8_return_value false ⟨0,0,4,4⟩ 4 true 1 .normal .low false).1.mpr (Or.inl rfl),
   (C8_return_value false ⟨0,0,4,4⟩ 4 true 1 .normal .low false).2.1 (Or.inl rfl),
   (C8_return_value true ⟨0,0,0,0⟩ 0 true (-1) .normal .low false).1.mpr
     (Or.inr (Or.inl (by decide))),
   (C8_return_value true ⟨0,0,0,0⟩ 0 true (-1) .normal .low false).2.2
     ((C8_return_value true ⟨0,0,0,0⟩ 0 true (-1) .normal .low false).1.mpr
       (Or.inr (Or.inl (by decide))))⟩

/-- C9: `BlurRect` with `createMode = kJustComputeBounds` returns true,
reports margin `(pad, pad)` with `pad` half the computed profile size,
sets the output bounds to the rounded rectangle outset by `pad` (restored
to the rounded rectangle itself for the inner style), computes no pixels
and allocates no buffers, and leaves the output mask's `fImage` NULL. -/
theorem C9_just_compute_bounds (rl rt rr rb providedRadius : ℚ) (style : SkBlurStyle) :
    (SkBlurMaskBlurRect rl rt rr rb providedRadius style .justComputeBounds).ok = true
      ∧ (SkBlurMaskBlurRect rl rt rr rb providedRadius style .justComputeBounds).margin
        = some (computeProfileSize (blurRectAdjRadius providedRadius) / 2,
            computeProfileSize (blurRectAdjRadius providedRadius) / 2)
      ∧ (SkBlurMaskBlurRect rl rt rr rb providedRadius style .justComputeBounds).imageSet
        = false
      ∧ (SkBlurMaskBlurRect rl rt rr rb providedRadius style .justComputeBounds).allocCount
        = 0
      ∧ (style ≠ .inner →
          (SkBlurMaskBlurRect rl rt rr rb providedRadius style .justComputeBounds).bounds
            = some ⟨SkScalarRound rl - computeProfileSize (blurRectAdjRadius providedRadius) / 2,
                SkScalarRound rt - computeProfileSize (blurRectAdjRadius providedRadius) / 2,
                SkScalarRound rr + computeProfileSize (blurRectAdjRadius providedRadius) / 2,
                SkScalarRound rb + computeProfileSize (blurRectAdjRadius providedRadius) / 2⟩)
      ∧ (style = .inner →
          (SkBlurMaskBlurRect rl rt rr rb providedRadius style .justComputeBounds).bounds
            = some ⟨SkScalarRound rl, SkScalarRound rt, SkScalarRound rr, SkScalarRound rb⟩) :=
  blurRect_bounds_only rl rt rr rb providedRadius style

/-- C9 witness at a concrete rectangle for both a non-inner and the inner
style. -/
theorem C9_witness :
    (SkBlurMaskBlurRect 0 0 10 8 2 .normal .justComputeBounds).ok = true
      ∧ (SkBlurMaskBlurRect 0 0 10 8 2 .normal .justComputeBounds).allocCount = 0
      ∧ (SkBlurMaskBlurRect 0 0 10 8 2 .normal .justComputeBounds).bounds
        = some ⟨SkScalarRound 0 - computeProfileSize (blurRectAdjRadius 2) / 2,
            SkScalarRound 0 - computeProfileSize (blurRectAdjRadius 2) / 2,
            SkScalarRound 10 + computeProfileSize (blurRectAdjRadius 2) / 2,
            SkScalarRound 8 + computeProfileSize (blurRectAdjRadius 2) / 2⟩
      ∧ (SkBlurMaskBlurRect 0 0 10 8 2 .inner .justComputeBounds).bounds
        = some ⟨SkScalarRound 0, SkScalarRound 0, SkScalarRound 10, SkScalarRound 8⟩ :=
  ⟨(C9_just_compute_bounds 0 0 10 8 2 .normal).1,
   (C9_just_compute_bounds 0 0 10 8 2 .normal).2.2.2.1,
   (C9_just_compute_bounds 0 0 10 8 2 .normal).2.2.2.2.1 (by decide),
   (C9_just_compute_bounds 0 0 10 8 2 .inner).2.2.2.2.2 rfl⟩

/-- C10: with an A8 format, a positive effective radius (`rx ≥ 1`) and a
NULL `fImage`, `Blur` returns true, reports the margin
`(passCount * rx, passCount * rx)`, sets the output bounds to the source
bounds outset by the margin (restored to the source bounds for the inner
style), and leaves the output mask's `fImage` NULL without allocating
anything: a null-image source acts as a bounds-only query. -/
theorem C10_null_image_query (srcBounds : SkIRect) (srcRowBytes : Int) (radius : ℚ)
    (style : SkBlurStyle) (quality : SkBlurQuality) (sep : Bool)
    (hrx : 0 < blurRx radius quality) :
    (SkBlurMaskBlur true srcBounds srcRowBytes false radius style quality sep).ok = true
      ∧ (SkBlurMaskBlur true srcBounds srcRowBytes false radius style quality sep).margin
        = some ((blurPassCount radius quality : Int) * blurRx radius quality,
            (blurPassCount radius quality : Int) * blurRx radius quality)
      ∧ (SkBlurMaskBlur true srcBounds srcRowBytes false radius style quality sep).imageSet
        = false
      ∧ (SkBlurMaskBlur true srcBounds srcRowBytes false radius style quality sep).allocCount
        = 0
      ∧ (style ≠ .inner →
          (SkBlurMaskBlur true srcBounds srcRowBytes false radius style quality sep).bounds
              = some (blurDstBounds srcBounds radius quality)
            ∧ (SkBlurMaskBlur true srcBounds srcRowBytes false radius style quality sep).rowBytes
              = some (blurDstBounds srcBounds radius quality).width)
      ∧ (style = .inner →
          (SkBlurMaskBlur true srcBounds srcRowBytes false radius style quality sep).bounds
              = some srcBounds
            ∧ (SkBlurMaskBlur true srcBounds srcRowBytes false radius style quality sep).rowBytes
              = some srcRowBytes) :=
  blur_null_image srcBounds srcRowBytes radius style quality sep hrx

/-- C10 witness at a concrete null-image call. -/
theorem C10_witness :
    (SkBlurMaskBlur true ⟨0,0,4,4⟩ 4 false 2 .normal .low false).ok = true
      ∧ (SkBlurMaskBlur true ⟨0,0,4,4⟩ 4 false 2 .normal .low false).imageSet = false
      ∧ (SkBlurMaskBlur true ⟨0,0,4,4⟩ 4 false 2 .normal .low false).allocCount = 0
      ∧ (SkBlurMaskBlur true ⟨0,0,4,4⟩ 4 false 2 .normal .low false).bounds
        = some (blurDstBounds ⟨0,0,4,4⟩ 2 .low) :=
  ⟨(C10_null_image_query ⟨0,0,4,4⟩ 4 2 .normal .low false (by decide)).1,
   (C10_null_image_query ⟨0,0,4,4⟩ 4 2 .normal .low false (by decide)).2.2.1,
   (C10_null_image_query ⟨0,0,4,4⟩ 4 2 .normal .low false (by decide)).2.2.2.1,
   ((C10_null_image_query ⟨0,0,4,4⟩ 4 2 .normal .low false (by decide)).2.2.2.2.1
     (by decide)).1⟩
